import Mathlib

/-!
GROUP BY / DISTINCT pushdown of the vtgate plan builder

A shallow embedding of `go/vt/vtgate/planbuilder/grouping.go` (`planGroupBy`,
`planDistinct`) and theorems about it.

The Go code rewrites a tree of builders in place.  Here a plan tree is a value
of the inductive type `builder`, and each of the two functions returns a pair:

* the first component is the tree as it stands after the call (every write the
  call made to the nodes it was given, whether or not the call ended in an
  error);
* the second component is what the Go function returns: `.ok node` for
  `(node, nil)` and `.error err` for `(nil, err)`.

"The call returns the node it was given" therefore reads `.ok t` where `t` is
the first component.
-/

namespace planbuilder

/-- The status codes of `vtrpcpb.Code`. -/
inductive Code
  | OK
  | CANCELED
  | UNKNOWN
  | INVALID_ARGUMENT
  | DEADLINE_EXCEEDED
  | NOT_FOUND
  | ALREADY_EXISTS
  | PERMISSION_DENIED
  | UNAUTHENTICATED
  | RESOURCE_EXHAUSTED
  | FAILED_PRECONDITION
  | ABORTED
  | OUT_OF_RANGE
  | UNIMPLEMENTED
  | INTERNAL
  | UNAVAILABLE
  | DATA_LOSS
  deriving DecidableEq, Repr

/-- An error value as built by `vterrors.New` / `vterrors.Errorf`: a code and a
message.  For `Errorf` the message is the format string as written in the
source; the formatted arguments are not rendered. -/
structure VtError where
  code : Code
  msg : String
  deriving DecidableEq, Repr

/-- Modelled from the spec: the column metadata (`*column`) is declared outside
grouping.go.  A column has "an identity" and "an origin node reference";
`id` stands for the pointer identity of the `*column`, `origin` for the address
of the builder that `Origin()` returns. -/
structure column where
  id : Nat
  origin : Nat
  deriving DecidableEq, Repr

/-- Modelled from the spec: a result column of a node ("has an identity and an
origin node reference"), which it carries in its `column` field. -/
structure resultColumn where
  column : column
  deriving DecidableEq, Repr

/-- Modelled from the spec: `sqlparser.Literal` is declared outside
grouping.go; "an integer literal used as an ordinal reference, e.g.
GROUP BY 2".  `Val` is the number written. -/
structure Literal where
  Val : Nat
  deriving DecidableEq, Repr

/-- The expression shapes the type switch of `planGroupBy` tells apart:
`*sqlparser.ColName`, `*sqlparser.Literal`, and every other shape (`Other`,
the `default:` case).  A column reference carries the `*column` that its
`Metadata` holds: the embedding covers the column references for which the
type assertion of line 54 holds. -/
inductive Expr
  | ColName (Metadata : column)
  | Literal (e : Literal)
  | Other (tag : Nat)
  deriving DecidableEq, Repr

/-- The type `sqlparser.GroupBy`, a list of expressions. -/
abbrev GroupBy := List Expr

/-- Modelled from the spec: the "mutable shard-local query representation" a
route owns, with the two clauses this pass writes.  It is a
`*sqlparser.Select`: the embedding covers the routes for which the type
assertion of line 47 holds. -/
structure Select where
  Distinct : Bool
  GroupBy : GroupBy
  deriving DecidableEq, Repr

/-- Modelled from the spec: `MakeDistinct` "marks the shard-local query
representation as distinct". -/
def Select.MakeDistinct (s : Select) : Select :=
  { s with Distinct := true }

/-- Modelled from the spec: the node variants are declared outside grouping.go.
The plan tree ("each node appears exactly once in a tree, no sharing, no
cycles").  `mergeSort` and `pulloutSubquery` are the passthrough variants;
the first field of each is the child slot `Inputs()[0]`.  An `orderedAggregate`
carries its own address `self` (what `c.Origin() == node` compares with), its
`resultColumns`, `eaggr.Keys`, `extraDistinct` and `input`.  `other` is a
builder of any further type. -/
inductive builder
  | mergeSort (input : builder)
  | pulloutSubquery (underlying subquery : builder)
  | route (Select : Select)
  | orderedAggregate (self : Nat) (resultColumns : List resultColumn) (Keys : List Int)
      (extraDistinct : Option Expr) (input : builder)
  | join (Left Right : builder)
  | subquery (input : builder)
  | concatenate (lhs rhs : builder)
  | distinct (input : builder)
  | other (tag : Nat)
  deriving DecidableEq, Repr

/-- The type test `_, isOrdered := input.(*orderedAggregate)` (line 28). -/
def isOrdered : builder → Bool
  | .orderedAggregate _ _ _ _ _ => true
  | _ => false

/-- Lines 58-63: `for i, rc := range node.resultColumns` with its `break`.
The result is the value of `colNumber` after the scan: the index of the first
result column whose column is `c`, or the value `colNumber` had before when
there is none. -/
def scanResultColumns (c : column) : List resultColumn → Nat → Int → Int
  | [], _, colNumber => colNumber
  | rc :: rest, i, colNumber =>
    if rc.column = c then (i : Int) else scanResultColumns c rest (i + 1) colNumber

/-- Lines 52-75: the `switch` of one iteration of the loop over `groupBy`, for
the node at address `self` with result columns `rcs`.  `colNumber` is the value
the variable has on entry (it is declared once, before the loop, line 50); the
result is its value at line 76, or the error the iteration returns. -/
def resolveKey (ResultFromNumber : List resultColumn → Literal → Except VtError Int)
    (self : Nat) (rcs : List resultColumn) (expr : Expr) (colNumber : Int) :
    Except VtError Int :=
  match expr with
  | .ColName c =>
    if c.origin = self then
      .error ⟨.INVALID_ARGUMENT, "group by expression cannot reference an aggregate function: %v"⟩
    else
      let colNumber := scanResultColumns c rcs 0 colNumber
      if colNumber = -1 then
        .error ⟨.UNIMPLEMENTED,
          "unsupported: in scatter query: group by column must reference column in SELECT list"⟩
      else .ok colNumber
  | .Literal e =>
    match ResultFromNumber rcs e with
    | .error err => .error err
    | .ok num => .ok num
  | .Other _ =>
    .error ⟨.UNIMPLEMENTED, "unsupported: in scatter query: only simple references allowed"⟩

/-- Lines 51-77: the loop over `groupBy`.  `Keys` is `node.eaggr.Keys`; the
result is `Keys` as the loop leaves it, and the error if an iteration
returned one. -/
def groupByLoop (ResultFromNumber : List resultColumn → Literal → Except VtError Int)
    (self : Nat) (rcs : List resultColumn) :
    GroupBy → Int → List Int → List Int × Except VtError Unit
  | [], _, Keys => (Keys, .ok ())
  | expr :: rest, colNumber, Keys =>
    match resolveKey ResultFromNumber self rcs expr colNumber with
    | .error err => (Keys, .error err)
    | .ok colNumber =>
      groupByLoop ResultFromNumber self rcs rest colNumber (Keys ++ [colNumber])

/-- Lines 79-81: `groupBy = append(groupBy, node.extraDistinct)` when the node
has an extra-distinct expression. -/
def appendExtraDistinct (groupBy : GroupBy) : Option Expr → GroupBy
  | some e => groupBy ++ [e]
  | none => groupBy

/-- Lines 25-95, `planGroupBy`.  The argument `pb` is not used by the function
and is left out; `ResultFromNumber` (defined outside grouping.go) is taken as
an argument.  The first component of the result is the tree after the call,
the second what the call returns. -/
def planGroupBy (ResultFromNumber : List resultColumn → Literal → Except VtError Int) :
    builder → GroupBy → builder × Except VtError builder
  | input, groupBy =>
    if groupBy.length = 0 ∧ isOrdered input = false then (input, .ok input)
    else
      match input with
      | .mergeSort input =>
        match planGroupBy ResultFromNumber input groupBy with
        | (input, .error err) => (.mergeSort input, .error err)
        | (_, .ok newInput) => (.mergeSort newInput, .ok (.mergeSort newInput))
      | .pulloutSubquery underlying subquery =>
        match planGroupBy ResultFromNumber underlying groupBy with
        | (underlying, .error err) => (.pulloutSubquery underlying subquery, .error err)
        | (_, .ok newInput) =>
          (.pulloutSubquery newInput subquery, .ok (.pulloutSubquery newInput subquery))
      | .route sel =>
        (.route { sel with GroupBy := groupBy }, .ok (.route { sel with GroupBy := groupBy }))
      | .orderedAggregate self rcs Keys extraDistinct input =>
        match groupByLoop ResultFromNumber self rcs groupBy (-1) Keys with
        | (Keys, .error err) => (.orderedAggregate self rcs Keys extraDistinct input, .error err)
        | (Keys, .ok _) =>
          match planGroupBy ResultFromNumber input (appendExtraDistinct groupBy extraDistinct) with
          | (input, .error err) =>
            (.orderedAggregate self rcs Keys extraDistinct input, .error err)
          | (_, .ok newInput) =>
            (.orderedAggregate self rcs Keys extraDistinct newInput,
              .ok (.orderedAggregate self rcs Keys extraDistinct newInput))
      | .join l r =>
        (.join l r, .error ⟨.UNIMPLEMENTED, "unupported: group by on cross-shard join"⟩)
      | input => (input, .error ⟨.INTERNAL, "%T.groupBy: unreachable"⟩)

/-- Lines 115-124: the loop over `node.resultColumns` in `planDistinct`, for
the node at address `self`; `i` is the index of the head of the list.  The
result is `Keys` as the loop leaves it, and `true` when the loop returned
(line 121: a column whose origin is the node itself was met). -/
def distinctLoop (self : Nat) : List resultColumn → Nat → List Int → List Int × Bool
  | [], _, Keys => (Keys, false)
  | rc :: rest, i, Keys =>
    if rc.column.origin = self then (Keys, true)
    else distinctLoop self rest (i + 1) (Keys ++ [(i : Int)])

/-- Modelled from the spec: `newDistinct` is declared outside grouping.go; it
builds "an explicit Distinct wrapper" whose child is the node given. -/
def newDistinct (node : builder) : builder := .distinct node

/-- Lines 98-143, `planDistinct`.  The first component of the result is the
tree after the call, the second what the call returns. -/
def planDistinct : builder → builder × Except VtError builder
  | .mergeSort input =>
    match planDistinct input with
    | (input, .error err) => (.mergeSort input, .error err)
    | (_, .ok newInput) => (.mergeSort newInput, .ok (.mergeSort newInput))
  | .pulloutSubquery underlying subquery =>
    match planDistinct underlying with
    | (underlying, .error err) => (.pulloutSubquery underlying subquery, .error err)
    | (_, .ok newInput) =>
      (.pulloutSubquery newInput subquery, .ok (.pulloutSubquery newInput subquery))
  | .route sel => (.route sel.MakeDistinct, .ok (.route sel.MakeDistinct))
  | .orderedAggregate self rcs Keys extraDistinct input =>
    match distinctLoop self rcs 0 Keys with
    | (Keys, true) =>
      (.orderedAggregate self rcs Keys extraDistinct input,
        .ok (newDistinct (.orderedAggregate self rcs Keys extraDistinct input)))
    | (Keys, false) =>
      match planDistinct input with
      | (input, .error err) => (.orderedAggregate self rcs Keys extraDistinct input, .error err)
      | (_, .ok newInput) =>
        (.orderedAggregate self rcs Keys extraDistinct newInput,
          .ok (.orderedAggregate self rcs Keys extraDistinct newInput))
  | .subquery input =>
    (.subquery input, .error ⟨.UNIMPLEMENTED, "unsupported: distinct on cross-shard subquery"⟩)
  | .concatenate lhs rhs =>
    (.concatenate lhs rhs,
      .error ⟨.UNIMPLEMENTED, "only union-all is supported for this operator"⟩)
  | .join l r =>
    (.join l r, .error ⟨.UNIMPLEMENTED, "unsupported: distinct on cross-shard join"⟩)
  | .distinct input => (.distinct input, .ok (.distinct input))
  | .other tag => (.other tag, .error ⟨.INTERNAL, "%T.distinct: unreachable"⟩)

/-! Vocabulary of the properties -/

/-- Modelled from the spec: the positional-literal resolver `ResultFromNumber`
is declared outside grouping.go; "given a node's result-column list and an
integer-literal expression, return the zero-based index it denotes, or an
error if out of range".  The functions above take the resolver as an argument;
this one is used where a concrete resolver is needed. -/
def ResultFromNumber (rcs : List resultColumn) (val : Literal) : Except VtError Int :=
  if val.Val < 1 ∨ val.Val > rcs.length then
    .error ⟨.UNKNOWN, "column number out of range"⟩
  else .ok ((val.Val : Int) - 1)

/-- A chain of zero or more passthrough nodes whose first input leads to a
route. -/
def leadsToRoute : builder → Bool
  | .mergeSort input => leadsToRoute input
  | .pulloutSubquery underlying _ => leadsToRoute underlying
  | .route _ => true
  | _ => false

/-- The shard-local query of the route that the first inputs of a chain of
passthrough nodes lead to. -/
def routeSelect : builder → Option Select
  | .mergeSort input => routeSelect input
  | .pulloutSubquery underlying _ => routeSelect underlying
  | .route sel => some sel
  | _ => none

/-- The downward walk from the root through the first input of passthrough
nodes and the input of orderedAggregate nodes: the join it reaches, if it
reaches one before any route (or any other node). -/
def joinOnWalk : builder → Option builder
  | .mergeSort input => joinOnWalk input
  | .pulloutSubquery underlying _ => joinOnWalk underlying
  | .orderedAggregate _ _ _ _ input => joinOnWalk input
  | .join l r => some (.join l r)
  | _ => none

/-- Along the walk through the first input of passthrough nodes and the input
of orderedAggregate nodes, started with the key list `groupBy`: the error of
the first orderedAggregate whose loop over the key list that reaches it returns
one, if there is such a node (an orderedAggregate hands to its input the list
it received, with its extra-distinct expression appended). -/
def firstFailure (ResultFromNumber : List resultColumn → Literal → Except VtError Int) :
    builder → GroupBy → Option VtError
  | .mergeSort input, groupBy => firstFailure ResultFromNumber input groupBy
  | .pulloutSubquery underlying _, groupBy => firstFailure ResultFromNumber underlying groupBy
  | .orderedAggregate self rcs Keys extraDistinct input, groupBy =>
    match (groupByLoop ResultFromNumber self rcs groupBy (-1) Keys).2 with
    | .error err => some err
    | .ok _ => firstFailure ResultFromNumber input (appendExtraDistinct groupBy extraDistinct)
  | _, _ => none

/-- The key list is empty when it reaches the first node, from the root down,
that is not an orderedAggregate: the key list given is empty and the root is
not an orderedAggregate, or the root is a run of orderedAggregate nodes none of
which carries an extra-distinct expression. -/
def emptyAtFirstOther : builder → GroupBy → Bool
  | .orderedAggregate _ _ _ extraDistinct input, groupBy =>
    emptyAtFirstOther input (appendExtraDistinct groupBy extraDistinct)
  | _, groupBy => groupBy.isEmpty

/-- The position a key denotes among the result columns `rcs`: for a column
reference, the index of the first result column with the same column, when
there is one; for a literal, the index the resolver returns, when it returns
one; no position for any other expression. -/
def keyPosition (ResultFromNumber : List resultColumn → Literal → Except VtError Int)
    (rcs : List resultColumn) : Expr → Option Int
  | .ColName c =>
    if c ∈ rcs.map resultColumn.column then
      some ((List.indexOf c (rcs.map resultColumn.column) : Nat) : Int)
    else none
  | .Literal e => (ResultFromNumber rcs e).toOption
  | .Other _ => none

/-- A key that resolves against the node at address `self` with result columns
`rcs`: a column reference whose origin is not the node and that matches some
result column, or a literal the resolver accepts. -/
def keyResolves (ResultFromNumber : List resultColumn → Literal → Except VtError Int)
    (self : Nat) (rcs : List resultColumn) : Expr → Bool
  | .ColName c => decide (c.origin ≠ self) && decide (c ∈ rcs.map resultColumn.column)
  | .Literal e => (ResultFromNumber rcs e).isOk
  | .Other _ => false

/-- The number of `distinct` nodes in a tree, over all children. -/
def countDistinct : builder → Nat
  | .mergeSort input => countDistinct input
  | .pulloutSubquery underlying subquery => countDistinct underlying + countDistinct subquery
  | .route _ => 0
  | .orderedAggregate _ _ _ _ input => countDistinct input
  | .join l r => countDistinct l + countDistinct r
  | .subquery input => countDistinct input
  | .concatenate lhs rhs => countDistinct lhs + countDistinct rhs
  | .distinct input => countDistinct input + 1
  | .other _ => 0

/-- A chain of zero or more passthrough nodes whose first input leads to a
subquery, a concatenate or a join. -/
def leadsToUnsupported : builder → Bool
  | .mergeSort input => leadsToUnsupported input
  | .pulloutSubquery underlying _ => leadsToUnsupported underlying
  | .subquery _ => true
  | .concatenate _ _ => true
  | .join _ _ => true
  | _ => false

/-- The variants that no case of the type switch of `planGroupBy` names:
subquery, concatenate, distinct, and a builder of any further type. -/
def fallsThrough : builder → Bool
  | .subquery _ => true
  | .concatenate _ _ => true
  | .distinct _ => true
  | .other _ => true
  | _ => false

/-- The tree `t` has the shape of the tree in the first argument and differs
from it at most in the `Keys` of the orderedAggregate nodes and the GROUP BY
clause of the route met on the walk through the first input of passthrough
nodes and the input of orderedAggregate nodes: along the walk the variants are
the same, the other child of a pulloutSubquery, the address, result columns
and extra-distinct expression of an orderedAggregate and the distinct mark of
the route are equal, and where the walk ends the two subtrees are equal. -/
def sameUpToKeysAndGroupBy : builder → builder → Bool
  | .mergeSort input, t =>
    match t with
    | .mergeSort input1 => sameUpToKeysAndGroupBy input input1
    | _ => false
  | .pulloutSubquery underlying subquery, t =>
    match t with
    | .pulloutSubquery underlying1 subquery1 =>
      decide (subquery1 = subquery) && sameUpToKeysAndGroupBy underlying underlying1
    | _ => false
  | .route sel, t =>
    match t with
    | .route sel1 => decide (sel1.Distinct = sel.Distinct)
    | _ => false
  | .orderedAggregate self rcs _ extraDistinct input, t =>
    match t with
    | .orderedAggregate self1 rcs1 _ extraDistinct1 input1 =>
      decide (self1 = self) && decide (rcs1 = rcs) && decide (extraDistinct1 = extraDistinct) &&
        sameUpToKeysAndGroupBy input input1
    | _ => false
  | .join l r, t => decide (t = .join l r)
  | .subquery input, t => decide (t = .subquery input)
  | .concatenate lhs rhs, t => decide (t = .concatenate lhs rhs)
  | .distinct input, t => decide (t = .distinct input)
  | .other tag, t => decide (t = .other tag)

/-- No orderedAggregate of the tree, over all children, carries an
extra-distinct expression. -/
def noExtraDistinct : builder → Bool
  | .mergeSort input => noExtraDistinct input
  | .pulloutSubquery underlying subquery => noExtraDistinct underlying && noExtraDistinct subquery
  | .route _ => true
  | .orderedAggregate _ _ _ extraDistinct input => extraDistinct.isNone && noExtraDistinct input
  | .join l r => noExtraDistinct l && noExtraDistinct r
  | .subquery input => noExtraDistinct input
  | .concatenate lhs rhs => noExtraDistinct lhs && noExtraDistinct rhs
  | .distinct input => noExtraDistinct input
  | .other _ => true

/-- The tree is built only from the variants that `planDistinct` names:
mergeSort, pulloutSubquery, route, orderedAggregate, join, subquery,
concatenate and distinct, over all children. -/
def knownVariants : builder → Bool
  | .mergeSort input => knownVariants input
  | .pulloutSubquery underlying subquery => knownVariants underlying && knownVariants subquery
  | .route _ => true
  | .orderedAggregate _ _ _ _ input => knownVariants input
  | .join l r => knownVariants l && knownVariants r
  | .subquery input => knownVariants input
  | .concatenate lhs rhs => knownVariants lhs && knownVariants rhs
  | .distinct input => knownVariants input
  | .other _ => false

/-- The positions `i`, `i + 1`, ..., `i + n - 1`, as entries of `Keys`. -/
def positionsFrom (i n : Nat) : List Int :=
  (List.range' i n).map (fun j => (j : Int))

/-! Unfolding lemmas -/

/-- A non-empty key list has a length other than 0. -/
theorem length_ne_zero_of_ne_nil (groupBy : GroupBy) (hne : groupBy ≠ []) :
    groupBy.length ≠ 0 := fun h => hne (List.length_eq_zero.mp h)

/-- The mergeSort case of the type switch, reached with a non-empty key list. -/
theorem planGroupBy_mergeSort (rfn : List resultColumn → Literal → Except VtError Int)
    (input : builder) (groupBy : GroupBy) (hne : groupBy ≠ []) :
    planGroupBy rfn (.mergeSort input) groupBy =
      match planGroupBy rfn input groupBy with
      | (input, .error err) => (.mergeSort input, .error err)
      | (_, .ok newInput) => (.mergeSort newInput, .ok (.mergeSort newInput)) := by
  rw [planGroupBy]; simp [length_ne_zero_of_ne_nil groupBy hne]

/-- The pulloutSubquery case of the type switch, reached with a non-empty key
list. -/
theorem planGroupBy_pulloutSubquery (rfn : List resultColumn → Literal → Except VtError Int)
    (underlying subquery : builder) (groupBy : GroupBy) (hne : groupBy ≠ []) :
    planGroupBy rfn (.pulloutSubquery underlying subquery) groupBy =
      match planGroupBy rfn underlying groupBy with
      | (underlying, .error err) => (.pulloutSubquery underlying subquery, .error err)
      | (_, .ok newInput) =>
        (.pulloutSubquery newInput subquery, .ok (.pulloutSubquery newInput subquery)) := by
  rw [planGroupBy]; simp [length_ne_zero_of_ne_nil groupBy hne]

/-- The route case of the type switch, reached with a non-empty key list. -/
theorem planGroupBy_route (rfn : List resultColumn → Literal → Except VtError Int)
    (sel : Select) (groupBy : GroupBy) (hne : groupBy ≠ []) :
    planGroupBy rfn (.route sel) groupBy =
      (.route { sel with GroupBy := groupBy }, .ok (.route { sel with GroupBy := groupBy })) := by
  rw [planGroupBy]; simp [length_ne_zero_of_ne_nil groupBy hne]

/-- The join case of the type switch, reached with a non-empty key list. -/
theorem planGroupBy_join (rfn : List resultColumn → Literal → Except VtError Int)
    (l r : builder) (groupBy : GroupBy) (hne : groupBy ≠ []) :
    planGroupBy rfn (.join l r) groupBy =
      (.join l r, .error ⟨.UNIMPLEMENTED, "unupported: group by on cross-shard join"⟩) := by
  rw [planGroupBy]; simp [length_ne_zero_of_ne_nil groupBy hne]

/-- The fall through of the type switch (line 94), reached with a non-empty key
list by a subquery. -/
theorem planGroupBy_subquery (rfn : List resultColumn → Literal → Except VtError Int)
    (input : builder) (groupBy : GroupBy) (hne : groupBy ≠ []) :
    planGroupBy rfn (.subquery input) groupBy =
      (.subquery input, .error ⟨.INTERNAL, "%T.groupBy: unreachable"⟩) := by
  rw [planGroupBy] <;> simp [length_ne_zero_of_ne_nil groupBy hne]

/-- The fall through of the type switch (line 94), reached with a non-empty key
list by a concatenate. -/
theorem planGroupBy_concatenate (rfn : List resultColumn → Literal → Except VtError Int)
    (lhs rhs : builder) (groupBy : GroupBy) (hne : groupBy ≠ []) :
    planGroupBy rfn (.concatenate lhs rhs) groupBy =
      (.concatenate lhs rhs, .error ⟨.INTERNAL, "%T.groupBy: unreachable"⟩) := by
  rw [planGroupBy] <;> simp [length_ne_zero_of_ne_nil groupBy hne]

/-- The fall through of the type switch (line 94), reached with a non-empty key
list by a distinct. -/
theorem planGroupBy_distinct (rfn : List resultColumn → Literal → Except VtError Int)
    (input : builder) (groupBy : GroupBy) (hne : groupBy ≠ []) :
    planGroupBy rfn (.distinct input) groupBy =
      (.distinct input, .error ⟨.INTERNAL, "%T.groupBy: unreachable"⟩) := by
  rw [planGroupBy] <;> simp [length_ne_zero_of_ne_nil groupBy hne]

/-- The fall through of the type switch (line 94), reached with a non-empty key
list by a builder of another type. -/
theorem planGroupBy_other (rfn : List resultColumn → Literal → Except VtError Int)
    (tag : Nat) (groupBy : GroupBy) (hne : groupBy ≠ []) :
    planGroupBy rfn (.other tag) groupBy =
      (.other tag, .error ⟨.INTERNAL, "%T.groupBy: unreachable"⟩) := by
  rw [planGroupBy] <;> simp [length_ne_zero_of_ne_nil groupBy hne]

/-- With an empty key list a node that is not an orderedAggregate is returned
as it is. -/
theorem planGroupBy_nil_of_not_ordered (rfn : List resultColumn → Literal → Except VtError Int)
    (node : builder) (h : isOrdered node = false) :
    planGroupBy rfn node [] = (node, .ok node) := by
  cases node <;> simp_all [planGroupBy, isOrdered]

/-- An orderedAggregate is visited whatever the key list. -/
theorem planGroupBy_orderedAggregate (rfn : List resultColumn → Literal → Except VtError Int)
    (self : Nat) (rcs : List resultColumn) (Keys : List Int) (extraDistinct : Option Expr)
    (input : builder) (groupBy : GroupBy) :
    planGroupBy rfn (.orderedAggregate self rcs Keys extraDistinct input) groupBy =
      match groupByLoop rfn self rcs groupBy (-1) Keys with
      | (Keys, .error err) => (.orderedAggregate self rcs Keys extraDistinct input, .error err)
      | (Keys, .ok _) =>
        match planGroupBy rfn input (appendExtraDistinct groupBy extraDistinct) with
        | (input, .error err) =>
          (.orderedAggregate self rcs Keys extraDistinct input, .error err)
        | (_, .ok newInput) =>
          (.orderedAggregate self rcs Keys extraDistinct newInput,
            .ok (.orderedAggregate self rcs Keys extraDistinct newInput)) := by
  rw [planGroupBy]; simp [isOrdered]

/-- The key list handed to the input of an orderedAggregate is non-empty when
the one it received is. -/
theorem appendExtraDistinct_ne_nil (groupBy : GroupBy) (extraDistinct : Option Expr)
    (hne : groupBy ≠ []) : appendExtraDistinct groupBy extraDistinct ≠ [] := by
  cases extraDistinct <;> simp [appendExtraDistinct, hne]

/-! Passthrough chains above a route, and the empty key list -/

/-- C1: on a chain of zero or more passthrough nodes whose first input leads to
a route, with a non-empty key list, `planGroupBy` returns without error the
node it was given (`.ok t`, `t` being the tree after the call), the tree is
still such a chain, and the GROUP BY clause of the route is the key list
itself, whatever it was before. -/
theorem planGroupBy_passthrough_route (rfn : List resultColumn → Literal → Except VtError Int)
    (node : builder) (groupBy : GroupBy)
    (hchain : leadsToRoute node = true) (hne : groupBy ≠ []) :
    ∃ t, planGroupBy rfn node groupBy = (t, .ok t) ∧ leadsToRoute t = true ∧
      (routeSelect t).map Select.GroupBy = some groupBy := by
  induction node with
  | mergeSort input ih =>
    obtain ⟨t, ht, hl, hr⟩ := ih (by simpa [leadsToRoute] using hchain)
    refine ⟨.mergeSort t, ?_, by simpa [leadsToRoute] using hl,
      by simpa [routeSelect] using hr⟩
    rw [planGroupBy_mergeSort rfn _ _ hne]; simp [ht]
  | pulloutSubquery u s ih _ =>
    obtain ⟨t, ht, hl, hr⟩ := ih (by simpa [leadsToRoute] using hchain)
    refine ⟨.pulloutSubquery t s, ?_, by simpa [leadsToRoute] using hl,
      by simpa [routeSelect] using hr⟩
    rw [planGroupBy_pulloutSubquery rfn _ _ _ hne]; simp [ht]
  | route sel =>
    exact ⟨.route { sel with GroupBy := groupBy }, planGroupBy_route rfn _ _ hne, rfl, rfl⟩
  | _ => simp [leadsToRoute] at hchain

/-- Witness of C1: a mergeSort over a pulloutSubquery over a route that already
has a GROUP BY clause, with two keys. -/
theorem planGroupBy_passthrough_route_witness :
    ∃ t, planGroupBy ResultFromNumber
        (.mergeSort (.pulloutSubquery (.route ⟨false, [.Other 5]⟩) (.route ⟨true, []⟩)))
        [.ColName ⟨10, 7⟩, .Literal ⟨2⟩] = (t, .ok t) ∧ leadsToRoute t = true ∧
      (routeSelect t).map Select.GroupBy = some [.ColName ⟨10, 7⟩, .Literal ⟨2⟩] :=
  planGroupBy_passthrough_route ResultFromNumber
    (.mergeSort (.pulloutSubquery (.route ⟨false, [.Other 5]⟩) (.route ⟨true, []⟩)))
    [.ColName ⟨10, 7⟩, .Literal ⟨2⟩] rfl (by simp)

/-- C2: with an empty key list, a node of any variant other than
orderedAggregate is returned as it is, without error, and the tree after the
call is the tree before it. -/
theorem planGroupBy_empty_noop (rfn : List resultColumn → Literal → Except VtError Int)
    (node : builder) (h : isOrdered node = false) :
    planGroupBy rfn node [] = (node, .ok node) :=
  planGroupBy_nil_of_not_ordered rfn node h

/-- Witness of C2: a join of two routes. -/
theorem planGroupBy_empty_noop_witness :
    planGroupBy ResultFromNumber (.join (.route ⟨false, []⟩) (.route ⟨false, [.Other 1]⟩)) [] =
      (.join (.route ⟨false, []⟩) (.route ⟨false, [.Other 1]⟩),
        .ok (.join (.route ⟨false, []⟩) (.route ⟨false, [.Other 1]⟩))) :=
  planGroupBy_empty_noop ResultFromNumber
    (.join (.route ⟨false, []⟩) (.route ⟨false, [.Other 1]⟩)) rfl

/-! A join on the walk -/

/-- When `planGroupBy` returns a node, it is the node it was given: the value
returned is the tree after the call. -/
theorem planGroupBy_ok_eq (rfn : List resultColumn → Literal → Except VtError Int)
    (node : builder) (groupBy : GroupBy) (t r : builder)
    (h : planGroupBy rfn node groupBy = (t, .ok r)) : r = t := by
  induction node generalizing groupBy t r with
  | orderedAggregate self rcs Keys extra input ih =>
    rw [planGroupBy_orderedAggregate] at h
    rcases hl : groupByLoop rfn self rcs groupBy (-1) Keys with ⟨K, e | u⟩
    · simp [hl] at h
    · rcases hi : planGroupBy rfn input (appendExtraDistinct groupBy extra) with ⟨t1, e | r1⟩
      · simp [hl, hi] at h
      · simp only [hl, hi, Prod.mk.injEq, Except.ok.injEq] at h
        rw [← h.1, ← h.2]
  | mergeSort input ih =>
    by_cases hg : groupBy = []
    · subst hg; rw [planGroupBy_nil_of_not_ordered rfn _ (by rfl)] at h
      simp only [Prod.mk.injEq, Except.ok.injEq] at h
      rw [← h.1, ← h.2]
    · rw [planGroupBy_mergeSort rfn _ _ hg] at h
      rcases hi : planGroupBy rfn input groupBy with ⟨t1, e | r1⟩
      · simp [hi] at h
      · simp only [hi, Prod.mk.injEq, Except.ok.injEq] at h
        rw [← h.1, ← h.2]
  | pulloutSubquery u s ih _ =>
    by_cases hg : groupBy = []
    · subst hg; rw [planGroupBy_nil_of_not_ordered rfn _ (by rfl)] at h
      simp only [Prod.mk.injEq, Except.ok.injEq] at h
      rw [← h.1, ← h.2]
    · rw [planGroupBy_pulloutSubquery rfn _ _ _ hg] at h
      rcases hi : planGroupBy rfn u groupBy with ⟨t1, e | r1⟩
      · simp [hi] at h
      · simp only [hi, Prod.mk.injEq, Except.ok.injEq] at h
        rw [← h.1, ← h.2]
  | _ =>
    by_cases hg : groupBy = []
    · subst hg; rw [planGroupBy_nil_of_not_ordered rfn _ (by rfl)] at h
      simp only [Prod.mk.injEq, Except.ok.injEq] at h
      rw [← h.1, ← h.2]
    · simp [planGroupBy_route, planGroupBy_join, planGroupBy_subquery, planGroupBy_concatenate,
        planGroupBy_distinct, planGroupBy_other, hg] at h
      try (rw [← h.1, ← h.2])

/-- The walk to a join is the same in the tree after the call. -/
theorem joinOnWalk_planGroupBy (rfn : List resultColumn → Literal → Except VtError Int)
    (node : builder) (groupBy : GroupBy) :
    joinOnWalk (planGroupBy rfn node groupBy).1 = joinOnWalk node := by
  induction node generalizing groupBy with
  | mergeSort input ih =>
    by_cases hg : groupBy = []
    · subst hg; rw [planGroupBy_nil_of_not_ordered rfn _ (by rfl)]
    · rw [planGroupBy_mergeSort rfn _ _ hg]
      have := ih groupBy
      rcases h : planGroupBy rfn input groupBy with ⟨t, e | r⟩
      · simp only [h] at this ⊢; simpa [joinOnWalk] using this
      · have hr := planGroupBy_ok_eq rfn _ _ _ _ h
        subst hr
        simp only [h] at this ⊢; simpa [joinOnWalk] using this
  | pulloutSubquery u s ih _ =>
    by_cases hg : groupBy = []
    · subst hg; rw [planGroupBy_nil_of_not_ordered rfn _ (by rfl)]
    · rw [planGroupBy_pulloutSubquery rfn _ _ _ hg]
      have := ih groupBy
      rcases h : planGroupBy rfn u groupBy with ⟨t, e | r⟩
      · simp only [h] at this ⊢; simpa [joinOnWalk] using this
      · have hr := planGroupBy_ok_eq rfn _ _ _ _ h
        subst hr
        simp only [h] at this ⊢; simpa [joinOnWalk] using this
  | orderedAggregate self rcs Keys extra input ih =>
    rw [planGroupBy_orderedAggregate]
    rcases hl : groupByLoop rfn self rcs groupBy (-1) Keys with ⟨K, e | u⟩
    · simp [joinOnWalk]
    · have := ih (appendExtraDistinct groupBy extra)
      rcases h : planGroupBy rfn input (appendExtraDistinct groupBy extra) with ⟨t, e | r⟩
      · simp only [h] at this ⊢; simpa [joinOnWalk] using this
      · have hr := planGroupBy_ok_eq rfn _ _ _ _ h
        subst hr
        simp only [h] at this ⊢; simpa [joinOnWalk] using this
  | _ =>
    by_cases hg : groupBy = []
    · subst hg; rw [planGroupBy_nil_of_not_ordered rfn _ (by rfl)]
    · simp [planGroupBy_route, planGroupBy_join, planGroupBy_subquery, planGroupBy_concatenate,
        planGroupBy_distinct, planGroupBy_other, hg, joinOnWalk]

/-- A non-empty key list is not empty at any node it reaches. -/
theorem emptyAtFirstOther_of_ne_nil (node : builder) :
    ∀ groupBy : GroupBy, groupBy ≠ [] → emptyAtFirstOther node groupBy = false := by
  induction node with
  | orderedAggregate self rcs Keys extra input ih =>
    intro groupBy hne
    simpa [emptyAtFirstOther] using ih _ (appendExtraDistinct_ne_nil groupBy extra hne)
  | _ => intro groupBy hne; simp [emptyAtFirstOther, hne]

/-- On a walk that reaches a join, a non-empty key list ends in the error of
the first orderedAggregate whose loop fails, and in the error of the join when
there is none. -/
theorem planGroupBy_join_error_eq (rfn : List resultColumn → Literal → Except VtError Int)
    (node j : builder) (groupBy : GroupBy) (hj : joinOnWalk node = some j)
    (hne : groupBy ≠ []) :
    (∀ e, firstFailure rfn node groupBy = some e →
      (planGroupBy rfn node groupBy).2 = .error e) ∧
    (firstFailure rfn node groupBy = none →
      (planGroupBy rfn node groupBy).2 =
        .error ⟨.UNIMPLEMENTED, "unupported: group by on cross-shard join"⟩) := by
  induction node generalizing groupBy with
  | mergeSort input ih =>
    obtain ⟨h1, h2⟩ := ih groupBy (by simpa [joinOnWalk] using hj) hne
    rw [planGroupBy_mergeSort rfn _ _ hne]
    simp only [firstFailure]
    rcases h : planGroupBy rfn input groupBy with ⟨t, e | r⟩
    · rw [h] at h1 h2; exact ⟨h1, h2⟩
    · rw [h] at h1 h2
      cases hf : firstFailure rfn input groupBy with
      | none => simpa using h2 hf
      | some e => simpa using h1 e hf
  | pulloutSubquery u s ih _ =>
    obtain ⟨h1, h2⟩ := ih groupBy (by simpa [joinOnWalk] using hj) hne
    rw [planGroupBy_pulloutSubquery rfn _ _ _ hne]
    simp only [firstFailure]
    rcases h : planGroupBy rfn u groupBy with ⟨t, e | r⟩
    · rw [h] at h1 h2; exact ⟨h1, h2⟩
    · rw [h] at h1 h2
      cases hf : firstFailure rfn u groupBy with
      | none => simpa using h2 hf
      | some e => simpa using h1 e hf
  | orderedAggregate self rcs Keys extra input ih =>
    rw [planGroupBy_orderedAggregate]
    simp only [firstFailure]
    rcases hl : groupByLoop rfn self rcs groupBy (-1) Keys with ⟨K, e | u⟩
    · simp
    · obtain ⟨h1, h2⟩ := ih (appendExtraDistinct groupBy extra)
        (by simpa [joinOnWalk] using hj) (appendExtraDistinct_ne_nil _ _ hne)
      rcases h : planGroupBy rfn input (appendExtraDistinct groupBy extra) with ⟨t, e | r⟩
      · rw [h] at h1 h2; exact ⟨h1, h2⟩
      · rw [h] at h1 h2
        cases hf : firstFailure rfn input (appendExtraDistinct groupBy extra) with
        | none => simpa using h2 hf
        | some e => simpa using h1 e hf
  | join l r =>
    rw [planGroupBy_join rfn _ _ _ hne]
    simp [firstFailure]
  | _ => simp [joinOnWalk] at hj

/-- On a walk that reaches a join, for every key list: the call returns at the
guard of lines 26-32 with the tree as it was when the key list is empty at the
first node that is not an orderedAggregate, and otherwise ends in the error of
the first orderedAggregate whose loop fails, or of the join when there is
none. -/
theorem planGroupBy_join_outcome (rfn : List resultColumn → Literal → Except VtError Int)
    (node j : builder) (groupBy : GroupBy) (hj : joinOnWalk node = some j) :
    (emptyAtFirstOther node groupBy = true → planGroupBy rfn node groupBy = (node, .ok node)) ∧
    (emptyAtFirstOther node groupBy = false →
      (∀ e, firstFailure rfn node groupBy = some e →
        (planGroupBy rfn node groupBy).2 = .error e) ∧
      (firstFailure rfn node groupBy = none →
        (planGroupBy rfn node groupBy).2 =
          .error ⟨.UNIMPLEMENTED, "unupported: group by on cross-shard join"⟩)) := by
  by_cases hne : groupBy = []
  · subst hne
    induction node with
    | orderedAggregate self rcs Keys extra input ih =>
      cases extra with
      | none =>
        obtain ⟨h1, h2⟩ := ih (by simpa [joinOnWalk] using hj)
        refine ⟨fun hg => ?_, fun hg => ?_⟩
        · have hi := h1 (by simpa [emptyAtFirstOther, appendExtraDistinct] using hg)
          rw [planGroupBy_orderedAggregate]
          simp [groupByLoop, appendExtraDistinct, hi]
        · have hi := h2 (by simpa [emptyAtFirstOther, appendExtraDistinct] using hg)
          rw [planGroupBy_orderedAggregate]
          simp only [firstFailure, groupByLoop, appendExtraDistinct]
          rcases h : planGroupBy rfn input [] with ⟨t, e | r⟩
          · rw [h] at hi; exact hi
          · rw [h] at hi
            cases hf : firstFailure rfn input [] with
            | none => simpa using hi.2 hf
            | some e => simpa using hi.1 e hf
      | some x =>
        have hx : ([] : GroupBy) ++ [x] ≠ [] := by simp
        have hi := planGroupBy_join_error_eq rfn input j ([] ++ [x])
          (by simpa [joinOnWalk] using hj) hx
        refine ⟨fun hg => ?_, fun _ => ?_⟩
        · have := emptyAtFirstOther_of_ne_nil input ([] ++ [x]) hx
          simp only [emptyAtFirstOther, appendExtraDistinct] at hg
          rw [this] at hg; simp at hg
        · rw [planGroupBy_orderedAggregate]
          simp only [firstFailure, groupByLoop, appendExtraDistinct]
          rcases h : planGroupBy rfn input ([] ++ [x]) with ⟨t, e | r⟩
          · rw [h] at hi; exact hi
          · rw [h] at hi
            cases hf : firstFailure rfn input ([] ++ [x]) with
            | none => simpa using hi.2 hf
            | some e => simpa using hi.1 e hf
    | _ =>
      exact ⟨fun _ => planGroupBy_nil_of_not_ordered rfn _ (by rfl),
        fun hg => by simp [emptyAtFirstOther] at hg⟩
  · refine ⟨fun hg => ?_, fun _ => planGroupBy_join_error_eq rfn node j groupBy hj hne⟩
    rw [emptyAtFirstOther_of_ne_nil node groupBy hne] at hg
    simp at hg


/-- C3 (amended): when the downward walk from the root reaches a join before
any route, then for every key list the tree after the call has that same join,
with the same subtree, at the end of the walk.  When the key list is empty at
the first node, from the root down, that is not an orderedAggregate (so it is
when the key list given is empty and the root is not an orderedAggregate), the
call is the no-op of lines 26-32: it returns the root without error and the
tree is as it was.  In every other case (so for every non-empty key list) the
call returns an error: the error of the first orderedAggregate on the walk
whose loop over the keys that reach it fails, when there is one, and otherwise
the unimplemented error of the join. -/
theorem planGroupBy_join_on_walk (rfn : List resultColumn → Literal → Except VtError Int)
    (node j : builder) (groupBy : GroupBy) (hj : joinOnWalk node = some j) :
    joinOnWalk (planGroupBy rfn node groupBy).1 = some j ∧
    (groupBy ≠ [] → emptyAtFirstOther node groupBy = false) ∧
    (groupBy = [] → isOrdered node = false → emptyAtFirstOther node groupBy = true) ∧
    (emptyAtFirstOther node groupBy = true → planGroupBy rfn node groupBy = (node, .ok node)) ∧
    (emptyAtFirstOther node groupBy = false →
      (∀ e, firstFailure rfn node groupBy = some e →
        (planGroupBy rfn node groupBy).2 = .error e) ∧
      (firstFailure rfn node groupBy = none →
        (planGroupBy rfn node groupBy).2 =
          .error ⟨.UNIMPLEMENTED, "unupported: group by on cross-shard join"⟩)) := by
  refine ⟨by rw [joinOnWalk_planGroupBy, hj], emptyAtFirstOther_of_ne_nil node groupBy, ?_,
    planGroupBy_join_outcome rfn node j groupBy hj⟩
  intro hg ho
  subst hg
  cases node <;> simp_all [emptyAtFirstOther, isOrdered]

/-- Witness of C3 (amended): a mergeSort over an orderedAggregate over a join,
grouped by a column that the orderedAggregate projects; an orderedAggregate
with an extra-distinct expression over a join, with the empty key list; and an
orderedAggregate over a join, grouped by an expression of another shape. -/
theorem planGroupBy_join_on_walk_witness :
    joinOnWalk (.mergeSort (.orderedAggregate 1 [⟨⟨10, 7⟩⟩] [] none
        (.join (.route ⟨false, []⟩) (.route ⟨false, []⟩)))) =
      some (.join (.route ⟨false, []⟩) (.route ⟨false, []⟩)) ∧
    joinOnWalk (planGroupBy ResultFromNumber (.mergeSort (.orderedAggregate 1 [⟨⟨10, 7⟩⟩] [] none
        (.join (.route ⟨false, []⟩) (.route ⟨false, []⟩)))) [.ColName ⟨10, 7⟩]).1 =
      some (.join (.route ⟨false, []⟩) (.route ⟨false, []⟩)) ∧
    (planGroupBy ResultFromNumber (.mergeSort (.orderedAggregate 1 [⟨⟨10, 7⟩⟩] [] none
        (.join (.route ⟨false, []⟩) (.route ⟨false, []⟩)))) [.ColName ⟨10, 7⟩]).2 =
      .error ⟨.UNIMPLEMENTED, "unupported: group by on cross-shard join"⟩ ∧
    (planGroupBy ResultFromNumber (.orderedAggregate 1 [⟨⟨12, 7⟩⟩] [] (some (.ColName ⟨12, 7⟩))
        (.join (.route ⟨false, []⟩) (.route ⟨false, []⟩))) []).2 =
      .error ⟨.UNIMPLEMENTED, "unupported: group by on cross-shard join"⟩ ∧
    (planGroupBy ResultFromNumber (.orderedAggregate 1 [⟨⟨10, 7⟩⟩] [] none
        (.join (.route ⟨false, []⟩) (.route ⟨false, []⟩))) [.Other 4]).2 =
      .error ⟨.UNIMPLEMENTED,
        "unsupported: in scatter query: only simple references allowed"⟩ :=
  have h1 := planGroupBy_join_on_walk ResultFromNumber
    (.mergeSort (.orderedAggregate 1 [⟨⟨10, 7⟩⟩] [] none
      (.join (.route ⟨false, []⟩) (.route ⟨false, []⟩))))
    (.join (.route ⟨false, []⟩) (.route ⟨false, []⟩)) [.ColName ⟨10, 7⟩] rfl
  have h2 := planGroupBy_join_on_walk ResultFromNumber
    (.orderedAggregate 1 [⟨⟨12, 7⟩⟩] [] (some (.ColName ⟨12, 7⟩))
      (.join (.route ⟨false, []⟩) (.route ⟨false, []⟩)))
    (.join (.route ⟨false, []⟩) (.route ⟨false, []⟩)) [] rfl
  have h3 := planGroupBy_join_on_walk ResultFromNumber
    (.orderedAggregate 1 [⟨⟨10, 7⟩⟩] [] none
      (.join (.route ⟨false, []⟩) (.route ⟨false, []⟩)))
    (.join (.route ⟨false, []⟩) (.route ⟨false, []⟩)) [.Other 4] rfl
  ⟨rfl, h1.1, (h1.2.2.2.2 rfl).2 rfl, (h2.2.2.2.2 rfl).2 rfl, (h3.2.2.2.2 rfl).1 _ rfl⟩

/-- Counterexample to C3 as stated: with the empty key list a join at the root
is returned without error (lines 26-32); and above a join an orderedAggregate
that is grouped by one of its own aggregate columns returns an
invalid-argument error, not an unimplemented one. -/
theorem planGroupBy_join_counterexample :
    (joinOnWalk (.join (.route ⟨false, []⟩) (.route ⟨false, []⟩)) =
        some (.join (.route ⟨false, []⟩) (.route ⟨false, []⟩)) ∧
      (planGroupBy ResultFromNumber (.join (.route ⟨false, []⟩) (.route ⟨false, []⟩)) []).2 =
        .ok (.join (.route ⟨false, []⟩) (.route ⟨false, []⟩))) ∧
    (joinOnWalk (.orderedAggregate 1 [⟨⟨10, 1⟩⟩] [] none
          (.join (.route ⟨false, []⟩) (.route ⟨false, []⟩))) =
        some (.join (.route ⟨false, []⟩) (.route ⟨false, []⟩)) ∧
      (planGroupBy ResultFromNumber (.orderedAggregate 1 [⟨⟨10, 1⟩⟩] [] none
          (.join (.route ⟨false, []⟩) (.route ⟨false, []⟩))) [.ColName ⟨10, 1⟩]).2 =
        .error ⟨.INVALID_ARGUMENT,
          "group by expression cannot reference an aggregate function: %v"⟩) :=
  ⟨⟨rfl, rfl⟩, ⟨rfl, rfl⟩⟩

/-! The loop of an orderedAggregate -/

/-- One iteration of the loop that returns an error ends the loop, `Keys`
being as it was on entry. -/
theorem groupByLoop_cons_error (rfn : List resultColumn → Literal → Except VtError Int)
    (self : Nat) (rcs : List resultColumn) (k : Expr) (rest : GroupBy) (cn : Int)
    (K : List Int) (err : VtError) (h : resolveKey rfn self rcs k cn = .error err) :
    groupByLoop rfn self rcs (k :: rest) cn K = (K, .error err) := by
  simp [groupByLoop, h]

/-- One iteration of the loop that resolves its key appends the position and
goes on with the next key. -/
theorem groupByLoop_cons_ok (rfn : List resultColumn → Literal → Except VtError Int)
    (self : Nat) (rcs : List resultColumn) (k : Expr) (rest : GroupBy) (cn n : Int)
    (K : List Int) (h : resolveKey rfn self rcs k cn = .ok n) :
    groupByLoop rfn self rcs (k :: rest) cn K = groupByLoop rfn self rcs rest n (K ++ [n]) := by
  simp [groupByLoop, h]

/-- A run of keys that the loop goes through without error appends one position
per key; the loop then goes on with the keys that follow. -/
theorem groupByLoop_append_of_ok (rfn : List resultColumn → Literal → Except VtError Int)
    (self : Nat) (rcs : List resultColumn) (pre : GroupBy) :
    ∀ (cn : Int) (K : List Int), (groupByLoop rfn self rcs pre cn K).2 = .ok () →
      ∃ (cn1 : Int) (ps : List Int), ps.length = pre.length ∧
        ∀ rest, groupByLoop rfn self rcs (pre ++ rest) cn K =
          groupByLoop rfn self rcs rest cn1 (K ++ ps) := by
  induction pre with
  | nil => intro cn K _; exact ⟨cn, [], rfl, fun rest => by simp⟩
  | cons k pre ih =>
    intro cn K h
    rcases hk : resolveKey rfn self rcs k cn with err | n
    · rw [groupByLoop_cons_error _ _ _ _ _ _ _ _ hk] at h; simp at h
    · rw [groupByLoop_cons_ok _ _ _ _ _ _ _ _ hk] at h
      obtain ⟨cn1, ps, hlen, hrest⟩ := ih n (K ++ [n]) h
      refine ⟨cn1, n :: ps, by simp [hlen], fun rest => ?_⟩
      rw [List.cons_append, groupByLoop_cons_ok _ _ _ _ _ _ _ _ hk, hrest rest]
      simp

/-- The loop over a single key returns the error of that key's iteration. -/
theorem resolveKey_error_of_loop (rfn : List resultColumn → Literal → Except VtError Int)
    (self : Nat) (rcs : List resultColumn) (k : Expr) (cn : Int) (K : List Int) (err : VtError)
    (h : (groupByLoop rfn self rcs [k] cn K).2 = .error err) :
    resolveKey rfn self rcs k cn = .error err := by
  rcases hk : resolveKey rfn self rcs k cn with e | n
  · rw [groupByLoop_cons_error _ _ _ _ _ _ _ _ hk] at h
    simpa using h
  · rw [groupByLoop_cons_ok _ _ _ _ _ _ _ _ hk] at h
    simp [groupByLoop] at h

/-- When the loop of an orderedAggregate returns an error, so does the call,
and the node is left with the `Keys` of the loop and its input as it was. -/
theorem planGroupBy_of_loop_error (rfn : List resultColumn → Literal → Except VtError Int)
    (self : Nat) (rcs : List resultColumn) (Keys K : List Int) (extraDistinct : Option Expr)
    (input : builder) (groupBy : GroupBy) (err : VtError)
    (h : groupByLoop rfn self rcs groupBy (-1) Keys = (K, .error err)) :
    planGroupBy rfn (.orderedAggregate self rcs Keys extraDistinct input) groupBy =
      (.orderedAggregate self rcs K extraDistinct input, .error err) := by
  rw [planGroupBy_orderedAggregate, h]

/-- The scan finds the first result column whose column is `c`, when there is
one. -/
theorem scanResultColumns_of_mem (c : column) :
    ∀ (rcs : List resultColumn) (i : Nat) (cn : Int), c ∈ rcs.map resultColumn.column →
      scanResultColumns c rcs i cn =
        ((i + List.indexOf c (rcs.map resultColumn.column) : Nat) : Int) := by
  intro rcs
  induction rcs with
  | nil => intro i cn h; simp at h
  | cons rc rest ih =>
    intro i cn h
    by_cases hc : rc.column = c
    · simp [scanResultColumns, hc]
    · have hmem : c ∈ rest.map resultColumn.column := by
        simp only [List.map_cons, List.mem_cons] at h
        rcases h with h | h
        · exact absurd h.symm hc
        · exact h
      simp only [scanResultColumns, hc, if_false, List.map_cons]
      rw [ih (i + 1) cn hmem, List.indexOf_cons_ne _ hc]
      congr 1; omega

/-- The scan leaves `colNumber` as it was, or sets it to an index of the list
scanned. -/
theorem scanResultColumns_range (c : column) :
    ∀ (rcs : List resultColumn) (i : Nat) (cn : Int),
      scanResultColumns c rcs i cn = cn ∨
        ((i : Int) ≤ scanResultColumns c rcs i cn ∧
          scanResultColumns c rcs i cn < (i : Int) + (rcs.length : Int)) := by
  intro rcs
  induction rcs with
  | nil => intro i cn; left; rfl
  | cons rc rest ih =>
    intro i cn
    by_cases hc : rc.column = c
    · right; simp [scanResultColumns, hc]
    · simp only [scanResultColumns, hc, if_false]
      rcases ih (i + 1) cn with h | h
      · left; exact h
      · right
        simp only [List.length_cons]
        push_cast at h ⊢
        omega

/-- The position an iteration resolves a key to is the position the key
denotes, when it denotes one. -/
theorem resolveKey_position (rfn : List resultColumn → Literal → Except VtError Int)
    (self : Nat) (rcs : List resultColumn) (k : Expr) (cn n p : Int)
    (h : resolveKey rfn self rcs k cn = .ok n) (hp : keyPosition rfn rcs k = some p) :
    n = p := by
  cases k with
  | ColName c =>
    simp only [keyPosition] at hp
    by_cases hm : c ∈ rcs.map resultColumn.column
    · simp only [hm, if_true, Option.some.injEq] at hp
      simp only [resolveKey] at h
      by_cases ho : c.origin = self
      · simp [ho] at h
      · simp only [ho, if_false] at h
        rw [scanResultColumns_of_mem c rcs 0 cn hm] at h
        split at h
        · simp at h
        · simp only [Except.ok.injEq] at h
          rw [← h, ← hp]; simp
    · simp [hm] at hp
  | Literal e =>
    simp only [keyPosition] at hp
    simp only [resolveKey] at h
    rcases hr : rfn rcs e with err | m
    · simp [hr] at h
    · simp only [hr, Except.ok.injEq] at h
      simp only [hr, Except.toOption, Option.some.injEq] at hp
      rw [← h, ← hp]
  | Other tag => simp [keyPosition] at hp

/-- A key that resolves against the node is resolved by an iteration of the
loop to the position it denotes, whatever `colNumber` was before. -/
theorem resolveKey_of_keyResolves (rfn : List resultColumn → Literal → Except VtError Int)
    (self : Nat) (rcs : List resultColumn) (k : Expr)
    (h : keyResolves rfn self rcs k = true) :
    ∃ p, keyPosition rfn rcs k = some p ∧ ∀ cn, resolveKey rfn self rcs k cn = .ok p := by
  cases k with
  | ColName c =>
    simp only [keyResolves, Bool.and_eq_true, decide_eq_true_eq] at h
    refine ⟨((List.indexOf c (rcs.map resultColumn.column) : Nat) : Int),
      by simp [keyPosition, h.2], fun cn => ?_⟩
    simp only [resolveKey, h.1, if_false]
    rw [scanResultColumns_of_mem c rcs 0 cn h.2]
    have : ¬ ((((0 + List.indexOf c (rcs.map resultColumn.column) : Nat)) : Int) = -1) := by omega
    simp only [this, if_false]
    simp
  | Literal e =>
    simp only [keyResolves] at h
    rcases hr : rfn rcs e with err | m
    · simp [hr, Except.isOk, Except.toBool] at h
    · exact ⟨m, by simp [keyPosition, hr, Except.toOption], fun cn => by simp [resolveKey, hr]⟩
  | Other tag => simp [keyResolves] at h

/-- When every key resolves against the node, the loop goes through all of them
and appends the positions they denote, in order. -/
theorem groupByLoop_of_keyResolves (rfn : List resultColumn → Literal → Except VtError Int)
    (self : Nat) (rcs : List resultColumn) (groupBy : GroupBy) :
    ∀ (cn : Int) (K : List Int), (∀ k ∈ groupBy, keyResolves rfn self rcs k = true) →
      ∃ ps : List Int, ps.map some = groupBy.map (keyPosition rfn rcs) ∧
        groupByLoop rfn self rcs groupBy cn K = (K ++ ps, .ok ()) := by
  induction groupBy with
  | nil => intro cn K _; exact ⟨[], rfl, by simp [groupByLoop]⟩
  | cons k rest ih =>
    intro cn K hall
    obtain ⟨p, hp, hk⟩ := resolveKey_of_keyResolves rfn self rcs k (hall k (by simp))
    obtain ⟨ps, hps, hl⟩ := ih p (K ++ [p]) (fun k1 hk1 => hall k1 (by simp [hk1]))
    refine ⟨p :: ps, by simp [hps, hp], ?_⟩
    rw [groupByLoop_cons_ok _ _ _ _ _ _ _ _ (hk cn), hl]; simp

/-- When the loop goes through all the keys, it has appended one position per
key, in order, and for each key that denotes a position it is that one. -/
theorem groupByLoop_ok_positions (rfn : List resultColumn → Literal → Except VtError Int)
    (self : Nat) (rcs : List resultColumn) (groupBy : GroupBy) :
    ∀ (cn : Int) (K K1 : List Int), groupByLoop rfn self rcs groupBy cn K = (K1, .ok ()) →
      ∃ ps : List Int, K1 = K ++ ps ∧ ps.length = groupBy.length ∧
        ∀ (i : Nat) (k : Expr) (p : Int), groupBy[i]? = some k →
          keyPosition rfn rcs k = some p → ps[i]? = some p := by
  induction groupBy with
  | nil =>
    intro cn K K1 h
    simp only [groupByLoop, Prod.mk.injEq, and_true] at h
    exact ⟨[], by simp [h], rfl, fun i k p hi => by simp at hi⟩
  | cons k rest ih =>
    intro cn K K1 h
    rcases hk : resolveKey rfn self rcs k cn with err | n
    · rw [groupByLoop_cons_error _ _ _ _ _ _ _ _ hk] at h; simp at h
    · rw [groupByLoop_cons_ok _ _ _ _ _ _ _ _ hk] at h
      obtain ⟨ps, hK, hlen, hpos⟩ := ih n (K ++ [n]) K1 h
      refine ⟨n :: ps, by simp [hK], by simp [hlen], ?_⟩
      intro i k1 p hi hp
      cases i with
      | zero =>
        simp only [List.getElem?_cons_zero, Option.some.injEq] at hi
        subst hi
        simp [resolveKey_position rfn self rcs k cn n p hk hp]
      | succ i =>
        simp only [List.getElem?_cons_succ] at hi ⊢
        exact hpos i k1 p hi hp

/-- When `planGroupBy` returns a node for an orderedAggregate, the loop went
through all the keys, the call on the input returned its node, and the node
returned is the orderedAggregate with the `Keys` of the loop. -/
theorem planGroupBy_orderedAggregate_ok (rfn : List resultColumn → Literal → Except VtError Int)
    (self : Nat) (rcs : List resultColumn) (Keys : List Int) (extraDistinct : Option Expr)
    (input : builder) (groupBy : GroupBy) (r : builder)
    (h : (planGroupBy rfn (.orderedAggregate self rcs Keys extraDistinct input) groupBy).2 =
      .ok r) :
    ∃ (K : List Int) (input1 : builder),
      groupByLoop rfn self rcs groupBy (-1) Keys = (K, .ok ()) ∧
      planGroupBy rfn input (appendExtraDistinct groupBy extraDistinct) = (input1, .ok input1) ∧
      r = .orderedAggregate self rcs K extraDistinct input1 ∧
      planGroupBy rfn (.orderedAggregate self rcs Keys extraDistinct input) groupBy = (r, .ok r) := by
  rw [planGroupBy_orderedAggregate] at h ⊢
  rcases hl : groupByLoop rfn self rcs groupBy (-1) Keys with ⟨K, e | u⟩
  · simp [hl] at h
  · rcases hi : planGroupBy rfn input (appendExtraDistinct groupBy extraDistinct) with ⟨t1, e | r1⟩
    · simp [hl, hi] at h
    · have hr := planGroupBy_ok_eq rfn _ _ _ _ hi
      subst hr
      simp only [hl, hi, Except.ok.injEq] at h
      exact ⟨K, r1, rfl, rfl, h.symm, by simp [h]⟩


/-- The resolver modelled from the spec returns indices of the result-column
list only. -/
theorem ResultFromNumber_range (rcs : List resultColumn) (e : Literal) (n : Int)
    (h : ResultFromNumber rcs e = .ok n) : 0 ≤ n ∧ n < (rcs.length : Int) := by
  unfold ResultFromNumber at h
  split at h
  · simp at h
  · rename_i hc
    simp only [Except.ok.injEq] at h
    omega

/-- An iteration that resolves its key leaves in `colNumber` an index of the
result-column list, when `colNumber` was -1 or such an index before and the
resolver returns such indices only. -/
theorem resolveKey_range (rfn : List resultColumn → Literal → Except VtError Int)
    (self : Nat) (rcs : List resultColumn)
    (hres : ∀ e n, rfn rcs e = .ok n → 0 ≤ n ∧ n < (rcs.length : Int))
    (k : Expr) (cn n : Int) (hcn : cn = -1 ∨ (0 ≤ cn ∧ cn < (rcs.length : Int)))
    (h : resolveKey rfn self rcs k cn = .ok n) : 0 ≤ n ∧ n < (rcs.length : Int) := by
  cases k with
  | ColName c =>
    simp only [resolveKey] at h
    split at h
    · simp at h
    · split at h
      · simp at h
      · rename_i hne
        simp only [Except.ok.injEq] at h
        rcases scanResultColumns_range c rcs 0 cn with hs | hs
        · rw [hs] at hne h
          rcases hcn with hcn | hcn
          · exact absurd hcn hne
          · rw [← h]; exact hcn
        · rw [← h]; push_cast at hs; omega
  | Literal e =>
    simp only [resolveKey] at h
    rcases hr : rfn rcs e with err | m
    · simp [hr] at h
    · simp only [hr, Except.ok.injEq] at h
      rw [← h]; exact hres e m hr
  | Other tag => simp [resolveKey] at h

/-- Whether or not the loop ends in an error, what it has appended to `Keys`
are indices of the result-column list. -/
theorem groupByLoop_range (rfn : List resultColumn → Literal → Except VtError Int)
    (self : Nat) (rcs : List resultColumn)
    (hres : ∀ e n, rfn rcs e = .ok n → 0 ≤ n ∧ n < (rcs.length : Int))
    (groupBy : GroupBy) :
    ∀ (cn : Int) (K : List Int), (cn = -1 ∨ (0 ≤ cn ∧ cn < (rcs.length : Int))) →
      ∃ ps : List Int, (groupByLoop rfn self rcs groupBy cn K).1 = K ++ ps ∧
        ∀ p ∈ ps, 0 ≤ p ∧ p < (rcs.length : Int) := by
  induction groupBy with
  | nil => intro cn K _; exact ⟨[], by simp [groupByLoop], by simp⟩
  | cons k rest ih =>
    intro cn K hcn
    rcases hk : resolveKey rfn self rcs k cn with err | n
    · rw [groupByLoop_cons_error _ _ _ _ _ _ _ _ hk]
      exact ⟨[], by simp, by simp⟩
    · have hn := resolveKey_range rfn self rcs hres k cn n hcn hk
      obtain ⟨ps, hps, hr⟩ := ih n (K ++ [n]) (Or.inr hn)
      rw [groupByLoop_cons_ok _ _ _ _ _ _ _ _ hk, hps]
      refine ⟨n :: ps, by simp, ?_⟩
      intro p hp
      simp only [List.mem_cons] at hp
      rcases hp with hp | hp
      · rw [hp]; exact hn
      · exact hr p hp

/-- What the loop of `planDistinct` appends to `Keys` are indices of the list
it scans, counted from `i`. -/
theorem distinctLoop_range (self : Nat) (rcs : List resultColumn) :
    ∀ (i : Nat) (K : List Int),
      ∃ ps : List Int, (distinctLoop self rcs i K).1 = K ++ ps ∧
        ∀ p ∈ ps, (i : Int) ≤ p ∧ p < (i : Int) + (rcs.length : Int) := by
  induction rcs with
  | nil => intro i K; exact ⟨[], by simp [distinctLoop], by simp⟩
  | cons rc rest ih =>
    intro i K
    by_cases ho : rc.column.origin = self
    · exact ⟨[], by simp [distinctLoop, ho], by simp⟩
    · obtain ⟨ps, hps, hr⟩ := ih (i + 1) (K ++ [(i : Int)])
      refine ⟨(i : Int) :: ps, by simp [distinctLoop, ho, hps], ?_⟩
      intro p hp
      simp only [List.mem_cons] at hp
      rcases hp with hp | hp
      · rw [hp]; simp
      · have := hr p hp
        simp only [List.length_cons]
        push_cast at this ⊢
        omega

/-- After `planGroupBy`, an orderedAggregate is the same node with the `Keys`
its loop left, over some input. -/
theorem planGroupBy_orderedAggregate_fst (rfn : List resultColumn → Literal → Except VtError Int)
    (self : Nat) (rcs : List resultColumn) (Keys : List Int) (extraDistinct : Option Expr)
    (input : builder) (groupBy : GroupBy) :
    ∃ input1 : builder,
      (planGroupBy rfn (.orderedAggregate self rcs Keys extraDistinct input) groupBy).1 =
        .orderedAggregate self rcs (groupByLoop rfn self rcs groupBy (-1) Keys).1
          extraDistinct input1 := by
  rw [planGroupBy_orderedAggregate]
  rcases hl : groupByLoop rfn self rcs groupBy (-1) Keys with ⟨K, e | u⟩
  · exact ⟨input, rfl⟩
  · rcases hi : planGroupBy rfn input (appendExtraDistinct groupBy extraDistinct) with ⟨t1, e | r1⟩
    · exact ⟨t1, rfl⟩
    · exact ⟨r1, rfl⟩

/-- After `planDistinct`, an orderedAggregate is the same node with the `Keys`
its loop left, over some input. -/
theorem planDistinct_orderedAggregate_fst
    (self : Nat) (rcs : List resultColumn) (Keys : List Int) (extraDistinct : Option Expr)
    (input : builder) :
    ∃ input1 : builder,
      (planDistinct (.orderedAggregate self rcs Keys extraDistinct input)).1 =
        .orderedAggregate self rcs (distinctLoop self rcs 0 Keys).1 extraDistinct input1 := by
  rw [planDistinct]
  rcases hl : distinctLoop self rcs 0 Keys with ⟨K, b⟩
  cases b with
  | true => exact ⟨input, rfl⟩
  | false =>
    rcases hi : planDistinct input with ⟨t1, e | r1⟩
    · exact ⟨t1, rfl⟩
    · exact ⟨r1, rfl⟩


/-! Keys of an orderedAggregate -/

/-- C4: for an orderedAggregate and a key list in which some key is a column
reference whose origin is the node itself, the keys before it being gone
through by the loop without error, `planGroupBy` returns the invalid-argument
error of line 56, whatever the result columns of the node are (the column may
or may not be among them: the origin is tested before the scan). -/
theorem planGroupBy_aggregate_origin (rfn : List resultColumn → Literal → Except VtError Int)
    (self : Nat) (rcs : List resultColumn) (Keys : List Int) (extraDistinct : Option Expr)
    (input : builder) (pre post : GroupBy) (c : column)
    (horigin : c.origin = self)
    (hpre : (groupByLoop rfn self rcs pre (-1) Keys).2 = .ok ()) :
    (planGroupBy rfn (.orderedAggregate self rcs Keys extraDistinct input)
        (pre ++ .ColName c :: post)).2 =
      .error ⟨.INVALID_ARGUMENT,
        "group by expression cannot reference an aggregate function: %v"⟩ := by
  obtain ⟨cn1, ps, _, hrest⟩ := groupByLoop_append_of_ok rfn self rcs pre (-1) Keys hpre
  have hk : resolveKey rfn self rcs (.ColName c) cn1 = .error ⟨.INVALID_ARGUMENT,
      "group by expression cannot reference an aggregate function: %v"⟩ := by
    simp [resolveKey, horigin]
  rw [planGroupBy_of_loop_error rfn self rcs Keys (Keys ++ ps) extraDistinct input _ _
    (by rw [hrest, groupByLoop_cons_error _ _ _ _ _ _ _ _ hk])]

/-- Witness of C4: the aggregate column is the first result column and is
named after a key that resolves. -/
theorem planGroupBy_aggregate_origin_witness :
    (⟨10, 1⟩ : column).origin = 1 ∧
    (groupByLoop ResultFromNumber 1 [⟨⟨10, 1⟩⟩, ⟨⟨11, 7⟩⟩] [.ColName ⟨11, 7⟩] (-1) []).2 =
      .ok () ∧
    (planGroupBy ResultFromNumber
        (.orderedAggregate 1 [⟨⟨10, 1⟩⟩, ⟨⟨11, 7⟩⟩] [] none (.route ⟨false, []⟩))
        ([.ColName ⟨11, 7⟩] ++ .ColName ⟨10, 1⟩ :: [.Literal ⟨1⟩])).2 =
      .error ⟨.INVALID_ARGUMENT,
        "group by expression cannot reference an aggregate function: %v"⟩ :=
  ⟨rfl, rfl, planGroupBy_aggregate_origin ResultFromNumber 1 [⟨⟨10, 1⟩⟩, ⟨⟨11, 7⟩⟩] [] none
    (.route ⟨false, []⟩) [.ColName ⟨11, 7⟩] [.Literal ⟨1⟩] ⟨10, 1⟩ rfl rfl⟩

/-- C5 (the code at the failing input): the node projects the column 11 only;
grouped by column 11 and then by column 12, which it does not project, the call
returns the node without error and has appended the position 0 twice: the scan
for column 12 leaves in `colNumber` the 0 of the key before, so the test of
line 64 does not fire. -/
theorem planGroupBy_unmatched_column_after_match :
    planGroupBy ResultFromNumber
        (.orderedAggregate 1 [⟨⟨11, 7⟩⟩] [] none (.route ⟨false, []⟩))
        [.ColName ⟨11, 7⟩, .ColName ⟨12, 7⟩] =
      (.orderedAggregate 1 [⟨⟨11, 7⟩⟩] [0, 0] none
          (.route ⟨false, [.ColName ⟨11, 7⟩, .ColName ⟨12, 7⟩]⟩),
        .ok (.orderedAggregate 1 [⟨⟨11, 7⟩⟩] [0, 0] none
          (.route ⟨false, [.ColName ⟨11, 7⟩, .ColName ⟨12, 7⟩]⟩))) ∧
    keyPosition ResultFromNumber [⟨⟨11, 7⟩⟩] (.ColName ⟨12, 7⟩) = none :=
  ⟨rfl, rfl⟩

/-- C6 (amended): for an orderedAggregate, when the loop goes through the keys
`pre` without error and the iteration of the next key `k` returns the error
`err`, `planGroupBy` returns `err`, the input of the node is as it was, and the
`Keys` of the node are the `Keys` before the call followed by one position per
key of `pre`, as the loop over `pre` alone leaves them: they are the `Keys`
before the call when the failing key is the first. -/
theorem planGroupBy_keys_on_failure (rfn : List resultColumn → Literal → Except VtError Int)
    (self : Nat) (rcs : List resultColumn) (Keys : List Int) (extraDistinct : Option Expr)
    (input : builder) (pre post : GroupBy) (k : Expr) (err : VtError)
    (hpre : (groupByLoop rfn self rcs pre (-1) Keys).2 = .ok ())
    (hk : (groupByLoop rfn self rcs (pre ++ [k]) (-1) Keys).2 = .error err) :
    ∃ ps : List Int, ps.length = pre.length ∧
      groupByLoop rfn self rcs pre (-1) Keys = (Keys ++ ps, .ok ()) ∧
      planGroupBy rfn (.orderedAggregate self rcs Keys extraDistinct input)
          (pre ++ k :: post) =
        (.orderedAggregate self rcs (Keys ++ ps) extraDistinct input, .error err) := by
  obtain ⟨cn1, ps, hlen, hrest⟩ := groupByLoop_append_of_ok rfn self rcs pre (-1) Keys hpre
  rw [hrest] at hk
  have hk1 := resolveKey_error_of_loop _ _ _ _ _ _ _ hk
  have hpre1 := hrest []
  simp only [List.append_nil] at hpre1
  exact ⟨ps, hlen, by rw [hpre1]; rfl, planGroupBy_of_loop_error rfn self rcs Keys (Keys ++ ps) extraDistinct input _ _
    (by rw [hrest, groupByLoop_cons_error _ _ _ _ _ _ _ _ hk1])⟩


/-- Witness of C6 (amended): the second key names the aggregate column. -/
theorem planGroupBy_keys_on_failure_witness :
    (groupByLoop ResultFromNumber 1 [⟨⟨10, 1⟩⟩, ⟨⟨11, 7⟩⟩] [.ColName ⟨11, 7⟩] (-1) [5]).2 =
      .ok () ∧
    (groupByLoop ResultFromNumber 1 [⟨⟨10, 1⟩⟩, ⟨⟨11, 7⟩⟩]
        ([.ColName ⟨11, 7⟩] ++ [.ColName ⟨10, 1⟩]) (-1) [5]).2 =
      .error ⟨.INVALID_ARGUMENT,
        "group by expression cannot reference an aggregate function: %v"⟩ ∧
    ∃ ps : List Int, ps.length = [Expr.ColName ⟨11, 7⟩].length ∧
      groupByLoop ResultFromNumber 1 [⟨⟨10, 1⟩⟩, ⟨⟨11, 7⟩⟩] [.ColName ⟨11, 7⟩] (-1) [5] =
        ([5] ++ ps, .ok ()) ∧
      planGroupBy ResultFromNumber
          (.orderedAggregate 1 [⟨⟨10, 1⟩⟩, ⟨⟨11, 7⟩⟩] [5] none (.route ⟨false, []⟩))
          ([.ColName ⟨11, 7⟩] ++ .ColName ⟨10, 1⟩ :: [.Other 3]) =
        (.orderedAggregate 1 [⟨⟨10, 1⟩⟩, ⟨⟨11, 7⟩⟩] ([5] ++ ps) none (.route ⟨false, []⟩),
          .error ⟨.INVALID_ARGUMENT,
            "group by expression cannot reference an aggregate function: %v"⟩) :=
  ⟨rfl, rfl, planGroupBy_keys_on_failure ResultFromNumber 1 [⟨⟨10, 1⟩⟩, ⟨⟨11, 7⟩⟩] [5] none
    (.route ⟨false, []⟩) [.ColName ⟨11, 7⟩] [.Other 3] (.ColName ⟨10, 1⟩) _ rfl rfl⟩

/-- Counterexample to C6 as stated: the node has no `Keys`; grouped by the
column 11, which resolves to position 1, and then by its own aggregate column
10, the call returns the invalid-argument error and the node is left with
`Keys = [1]`. -/
theorem planGroupBy_keys_on_failure_counterexample :
    planGroupBy ResultFromNumber
        (.orderedAggregate 1 [⟨⟨10, 1⟩⟩, ⟨⟨11, 7⟩⟩] [] none (.route ⟨false, []⟩))
        [.ColName ⟨11, 7⟩, .ColName ⟨10, 1⟩] =
      (.orderedAggregate 1 [⟨⟨10, 1⟩⟩, ⟨⟨11, 7⟩⟩] [1] none (.route ⟨false, []⟩),
        .error ⟨.INVALID_ARGUMENT,
          "group by expression cannot reference an aggregate function: %v"⟩) ∧
    ([1] : List Int) ≠ [] :=
  ⟨rfl, by simp⟩

/-- C7 (amended): for an orderedAggregate that carries an extra-distinct
expression `e`, when `planGroupBy` returns a node, that node is the
orderedAggregate itself and its `Keys` are the `Keys` before the call followed
by exactly one position per key of the list given, in order, and by nothing
else: a key that denotes a position (a column reference found among the result
columns, a literal the resolver accepts) contributes that position.  The
expression `e` adds no entry to `Keys`; it is appended to the key list that is
handed to the input of the node. -/
theorem planGroupBy_extraDistinct_keys (rfn : List resultColumn → Literal → Except VtError Int)
    (self : Nat) (rcs : List resultColumn) (Keys : List Int) (e : Expr)
    (input : builder) (groupBy : GroupBy) (r : builder)
    (h : (planGroupBy rfn (.orderedAggregate self rcs Keys (some e) input) groupBy).2 = .ok r) :
    ∃ (ps : List Int) (input1 : builder),
      planGroupBy rfn (.orderedAggregate self rcs Keys (some e) input) groupBy = (r, .ok r) ∧
      r = .orderedAggregate self rcs (Keys ++ ps) (some e) input1 ∧
      ps.length = groupBy.length ∧
      (∀ (i : Nat) (k : Expr) (p : Int), groupBy[i]? = some k →
        keyPosition rfn rcs k = some p → ps[i]? = some p) ∧
      planGroupBy rfn input (groupBy ++ [e]) = (input1, .ok input1) := by
  obtain ⟨K, input1, hl, hi, hr, hp⟩ := planGroupBy_orderedAggregate_ok _ _ _ _ _ _ _ _ h
  obtain ⟨ps, hK, hlen, hpos⟩ := groupByLoop_ok_positions _ _ _ _ _ _ _ hl
  subst hK
  exact ⟨ps, input1, hp, hr, hlen, hpos, hi⟩

/-- Witness of C7 (amended): an orderedAggregate over a route, with the
extra-distinct column 12 among its result columns. -/
theorem planGroupBy_extraDistinct_keys_witness :
    (planGroupBy ResultFromNumber
        (.orderedAggregate 1 [⟨⟨11, 7⟩⟩, ⟨⟨12, 7⟩⟩] [] (some (.ColName ⟨12, 7⟩))
          (.route ⟨false, []⟩)) [.ColName ⟨11, 7⟩]).2 =
      .ok (.orderedAggregate 1 [⟨⟨11, 7⟩⟩, ⟨⟨12, 7⟩⟩] [0] (some (.ColName ⟨12, 7⟩))
          (.route ⟨false, [.ColName ⟨11, 7⟩, .ColName ⟨12, 7⟩]⟩)) ∧
    ∃ (ps : List Int) (input1 : builder),
      planGroupBy ResultFromNumber
          (.orderedAggregate 1 [⟨⟨11, 7⟩⟩, ⟨⟨12, 7⟩⟩] [] (some (.ColName ⟨12, 7⟩))
            (.route ⟨false, []⟩)) [.ColName ⟨11, 7⟩] =
        (.orderedAggregate 1 [⟨⟨11, 7⟩⟩, ⟨⟨12, 7⟩⟩] [0] (some (.ColName ⟨12, 7⟩))
            (.route ⟨false, [.ColName ⟨11, 7⟩, .ColName ⟨12, 7⟩]⟩),
          .ok (.orderedAggregate 1 [⟨⟨11, 7⟩⟩, ⟨⟨12, 7⟩⟩] [0] (some (.ColName ⟨12, 7⟩))
            (.route ⟨false, [.ColName ⟨11, 7⟩, .ColName ⟨12, 7⟩]⟩))) ∧
      builder.orderedAggregate 1 [⟨⟨11, 7⟩⟩, ⟨⟨12, 7⟩⟩] [0] (some (.ColName ⟨12, 7⟩))
          (.route ⟨false, [.ColName ⟨11, 7⟩, .ColName ⟨12, 7⟩]⟩) =
        .orderedAggregate 1 [⟨⟨11, 7⟩⟩, ⟨⟨12, 7⟩⟩] ([] ++ ps) (some (.ColName ⟨12, 7⟩)) input1 ∧
      ps.length = [Expr.ColName ⟨11, 7⟩].length ∧
      (∀ (i : Nat) (k : Expr) (p : Int), [Expr.ColName ⟨11, 7⟩][i]? = some k →
        keyPosition ResultFromNumber [⟨⟨11, 7⟩⟩, ⟨⟨12, 7⟩⟩] k = some p → ps[i]? = some p) ∧
      planGroupBy ResultFromNumber (.route ⟨false, []⟩)
          ([.ColName ⟨11, 7⟩] ++ [.ColName ⟨12, 7⟩]) = (input1, .ok input1) :=
  ⟨rfl, planGroupBy_extraDistinct_keys ResultFromNumber 1 [⟨⟨11, 7⟩⟩, ⟨⟨12, 7⟩⟩] []
    (.ColName ⟨12, 7⟩) (.route ⟨false, []⟩) [.ColName ⟨11, 7⟩] _ rfl⟩

/-- Counterexample to C7 as stated: the node has the extra-distinct column 12,
which is its result column 1; grouped by the column 11 the call returns the
node with `Keys = [0]`, not `[0, 1]`, and the route below is grouped by the
columns 11 and 12. -/
theorem planGroupBy_extraDistinct_keys_counterexample :
    planGroupBy ResultFromNumber
        (.orderedAggregate 1 [⟨⟨11, 7⟩⟩, ⟨⟨12, 7⟩⟩] [] (some (.ColName ⟨12, 7⟩))
          (.route ⟨false, []⟩)) [.ColName ⟨11, 7⟩] =
      (.orderedAggregate 1 [⟨⟨11, 7⟩⟩, ⟨⟨12, 7⟩⟩] [0] (some (.ColName ⟨12, 7⟩))
          (.route ⟨false, [.ColName ⟨11, 7⟩, .ColName ⟨12, 7⟩]⟩),
        .ok (.orderedAggregate 1 [⟨⟨11, 7⟩⟩, ⟨⟨12, 7⟩⟩] [0] (some (.ColName ⟨12, 7⟩))
          (.route ⟨false, [.ColName ⟨11, 7⟩, .ColName ⟨12, 7⟩]⟩))) ∧
    keyPosition ResultFromNumber [⟨⟨11, 7⟩⟩, ⟨⟨12, 7⟩⟩] (.ColName ⟨11, 7⟩) = some 0 ∧
    keyPosition ResultFromNumber [⟨⟨11, 7⟩⟩, ⟨⟨12, 7⟩⟩] (.ColName ⟨12, 7⟩) = some 1 ∧
    ([0] : List Int) ≠ [] ++ [0] ++ [1] :=
  ⟨rfl, rfl, rfl, by simp⟩

/-- C8: for an orderedAggregate without an extra-distinct expression and a key
list each key of which is a column reference with an origin other than the
node that matches some result column, or a literal the resolver accepts, when
`planGroupBy` returns a node, that node is the orderedAggregate itself and its
`Keys` are the `Keys` before the call followed by one position per key, in the
order of the keys: the index of the first result column with the same column
for a column reference, the index the resolver returns for a literal. -/
theorem planGroupBy_keys_positions (rfn : List resultColumn → Literal → Except VtError Int)
    (self : Nat) (rcs : List resultColumn) (Keys : List Int)
    (input : builder) (groupBy : GroupBy) (r : builder)
    (hall : ∀ k ∈ groupBy, keyResolves rfn self rcs k = true)
    (h : (planGroupBy rfn (.orderedAggregate self rcs Keys none input) groupBy).2 = .ok r) :
    ∃ (ps : List Int) (input1 : builder),
      ps.map some = groupBy.map (keyPosition rfn rcs) ∧
      planGroupBy rfn (.orderedAggregate self rcs Keys none input) groupBy = (r, .ok r) ∧
      r = .orderedAggregate self rcs (Keys ++ ps) none input1 := by
  obtain ⟨K, input1, hl, _, hr, hp⟩ := planGroupBy_orderedAggregate_ok _ _ _ _ _ _ _ _ h
  obtain ⟨ps, hps, hl2⟩ := groupByLoop_of_keyResolves rfn self rcs groupBy (-1) Keys hall
  rw [hl2] at hl
  simp only [Prod.mk.injEq, and_true] at hl
  subst hl
  exact ⟨ps, input1, hps, hp, hr⟩

/-- Witness of C8: the keys are the literal 1 and the column 11, which is the
result column 1. -/
theorem planGroupBy_keys_positions_witness :
    (∀ k ∈ [Expr.Literal ⟨1⟩, Expr.ColName ⟨11, 7⟩],
      keyResolves ResultFromNumber 1 [⟨⟨10, 1⟩⟩, ⟨⟨11, 7⟩⟩] k = true) ∧
    (planGroupBy ResultFromNumber
        (.orderedAggregate 1 [⟨⟨10, 1⟩⟩, ⟨⟨11, 7⟩⟩] [4] none (.route ⟨false, []⟩))
        [.Literal ⟨1⟩, .ColName ⟨11, 7⟩]).2 =
      .ok (.orderedAggregate 1 [⟨⟨10, 1⟩⟩, ⟨⟨11, 7⟩⟩] [4, 0, 1] none
        (.route ⟨false, [.Literal ⟨1⟩, .ColName ⟨11, 7⟩]⟩)) ∧
    ∃ (ps : List Int) (input1 : builder),
      ps.map some = [Expr.Literal ⟨1⟩, Expr.ColName ⟨11, 7⟩].map
        (keyPosition ResultFromNumber [⟨⟨10, 1⟩⟩, ⟨⟨11, 7⟩⟩]) ∧
      planGroupBy ResultFromNumber
          (.orderedAggregate 1 [⟨⟨10, 1⟩⟩, ⟨⟨11, 7⟩⟩] [4] none (.route ⟨false, []⟩))
          [.Literal ⟨1⟩, .ColName ⟨11, 7⟩] =
        (.orderedAggregate 1 [⟨⟨10, 1⟩⟩, ⟨⟨11, 7⟩⟩] [4, 0, 1] none
            (.route ⟨false, [.Literal ⟨1⟩, .ColName ⟨11, 7⟩]⟩),
          .ok (.orderedAggregate 1 [⟨⟨10, 1⟩⟩, ⟨⟨11, 7⟩⟩] [4, 0, 1] none
            (.route ⟨false, [.Literal ⟨1⟩, .ColName ⟨11, 7⟩]⟩))) ∧
      builder.orderedAggregate 1 [⟨⟨10, 1⟩⟩, ⟨⟨11, 7⟩⟩] [4, 0, 1] none
          (.route ⟨false, [.Literal ⟨1⟩, .ColName ⟨11, 7⟩]⟩) =
        .orderedAggregate 1 [⟨⟨10, 1⟩⟩, ⟨⟨11, 7⟩⟩] ([4] ++ ps) none input1 :=
  ⟨by decide, rfl, planGroupBy_keys_positions ResultFromNumber 1 [⟨⟨10, 1⟩⟩, ⟨⟨11, 7⟩⟩] [4]
    (.route ⟨false, []⟩) [.Literal ⟨1⟩, .ColName ⟨11, 7⟩] _ (by decide) rfl⟩

/-- C9: for an orderedAggregate, when the resolver returns only indices of the
result-column list of the node, the `Keys` of the node after `planGroupBy`
(for every key list, whether the call ends in an error or not) and after
`planDistinct` are the `Keys` before the call followed by positions each of
which is at least 0 and less than the number of result columns. -/
theorem keys_positions_in_range (rfn : List resultColumn → Literal → Except VtError Int)
    (self : Nat) (rcs : List resultColumn) (Keys : List Int) (extraDistinct : Option Expr)
    (input : builder) (groupBy : GroupBy)
    (hres : ∀ e n, rfn rcs e = .ok n → 0 ≤ n ∧ n < (rcs.length : Int)) :
    (∃ (ps : List Int) (input1 : builder),
      (planGroupBy rfn (.orderedAggregate self rcs Keys extraDistinct input) groupBy).1 =
        .orderedAggregate self rcs (Keys ++ ps) extraDistinct input1 ∧
      ∀ p ∈ ps, 0 ≤ p ∧ p < (rcs.length : Int)) ∧
    (∃ (ps : List Int) (input1 : builder),
      (planDistinct (.orderedAggregate self rcs Keys extraDistinct input)).1 =
        .orderedAggregate self rcs (Keys ++ ps) extraDistinct input1 ∧
      ∀ p ∈ ps, 0 ≤ p ∧ p < (rcs.length : Int)) := by
  constructor
  · obtain ⟨input1, h1⟩ := planGroupBy_orderedAggregate_fst rfn self rcs Keys extraDistinct
      input groupBy
    obtain ⟨ps, hps, hr⟩ := groupByLoop_range rfn self rcs hres groupBy (-1) Keys (Or.inl rfl)
    exact ⟨ps, input1, by rw [h1, hps], hr⟩
  · obtain ⟨input1, h1⟩ := planDistinct_orderedAggregate_fst self rcs Keys extraDistinct input
    obtain ⟨ps, hps, hr⟩ := distinctLoop_range self rcs 0 Keys
    refine ⟨ps, input1, by rw [h1, hps], fun p hp => ?_⟩
    have := hr p hp
    push_cast at this
    omega


/-- Witness of C9: the resolver modelled from the spec, two result columns, a
key list that ends in an error. -/
theorem keys_positions_in_range_witness :
    (∀ e n, ResultFromNumber [⟨⟨10, 1⟩⟩, ⟨⟨11, 7⟩⟩] e = .ok n →
      0 ≤ n ∧ n < (([⟨⟨10, 1⟩⟩, ⟨⟨11, 7⟩⟩] : List resultColumn).length : Int)) ∧
    ((∃ (ps : List Int) (input1 : builder),
      (planGroupBy ResultFromNumber
          (.orderedAggregate 1 [⟨⟨10, 1⟩⟩, ⟨⟨11, 7⟩⟩] [1] none (.route ⟨false, []⟩))
          [.Literal ⟨2⟩, .ColName ⟨12, 7⟩, .Other 0]).1 =
        .orderedAggregate 1 [⟨⟨10, 1⟩⟩, ⟨⟨11, 7⟩⟩] ([1] ++ ps) none input1 ∧
      ∀ p ∈ ps, 0 ≤ p ∧ p < (([⟨⟨10, 1⟩⟩, ⟨⟨11, 7⟩⟩] : List resultColumn).length : Int)) ∧
    (∃ (ps : List Int) (input1 : builder),
      (planDistinct
          (.orderedAggregate 1 [⟨⟨10, 1⟩⟩, ⟨⟨11, 7⟩⟩] [1] none (.route ⟨false, []⟩))).1 =
        .orderedAggregate 1 [⟨⟨10, 1⟩⟩, ⟨⟨11, 7⟩⟩] ([1] ++ ps) none input1 ∧
      ∀ p ∈ ps, 0 ≤ p ∧ p < (([⟨⟨10, 1⟩⟩, ⟨⟨11, 7⟩⟩] : List resultColumn).length : Int))) :=
  ⟨fun e n h => ResultFromNumber_range _ e n h,
    keys_positions_in_range ResultFromNumber 1 [⟨⟨10, 1⟩⟩, ⟨⟨11, 7⟩⟩] [1] none
      (.route ⟨false, []⟩) [.Literal ⟨2⟩, .ColName ⟨12, 7⟩, .Other 0]
      (fun e n h => ResultFromNumber_range _ e n h)⟩

/-! DISTINCT on a passthrough chain -/

/-- C10 (amended): on a chain of zero or more passthrough nodes whose first
input leads to a route, `planDistinct` returns without error the node it was
given (`.ok t`, `t` being the tree after the call), the tree is still such a
chain, its route is marked distinct, and no distinct node has been added: the
tree has as many distinct nodes as before, none when it had none. -/
theorem planDistinct_passthrough_route (node : builder) (hchain : leadsToRoute node = true) :
    ∃ t, planDistinct node = (t, .ok t) ∧ leadsToRoute t = true ∧
      (routeSelect t).map Select.Distinct = some true ∧
      countDistinct t = countDistinct node := by
  induction node with
  | mergeSort input ih =>
    obtain ⟨t, ht, hl, hr, hc⟩ := ih (by simpa [leadsToRoute] using hchain)
    refine ⟨.mergeSort t, ?_, by simpa [leadsToRoute] using hl,
      by simpa [routeSelect] using hr, by simpa [countDistinct] using hc⟩
    rw [planDistinct]; simp [ht]
  | pulloutSubquery u s ih _ =>
    obtain ⟨t, ht, hl, hr, hc⟩ := ih (by simpa [leadsToRoute] using hchain)
    refine ⟨.pulloutSubquery t s, ?_, by simpa [leadsToRoute] using hl,
      by simpa [routeSelect] using hr, by simpa [countDistinct] using hc⟩
    rw [planDistinct]; simp [ht]
  | route sel =>
    exact ⟨.route sel.MakeDistinct, by rw [planDistinct], rfl, rfl, rfl⟩
  | _ => simp [leadsToRoute] at hchain

/-- Witness of C10 (amended): a pulloutSubquery over a mergeSort over a route that is not
marked distinct. -/
theorem planDistinct_passthrough_route_witness :
    ∃ t, planDistinct (.pulloutSubquery (.mergeSort (.route ⟨false, [.Other 2]⟩))
        (.route ⟨false, []⟩)) = (t, .ok t) ∧ leadsToRoute t = true ∧
      (routeSelect t).map Select.Distinct = some true ∧
      countDistinct t = countDistinct (.pulloutSubquery
        (.mergeSort (.route ⟨false, [.Other 2]⟩)) (.route ⟨false, []⟩)) :=
  planDistinct_passthrough_route
    (.pulloutSubquery (.mergeSort (.route ⟨false, [.Other 2]⟩)) (.route ⟨false, []⟩)) rfl

/-- Counterexample to C10 as stated: a pulloutSubquery whose first input is a
route and whose other input is a distinct node over a route.  The call returns
the node, with the route of the first input marked distinct, and the tree
returned still has the distinct node of the other input, which the call does
not visit. -/
theorem planDistinct_passthrough_route_counterexample :
    leadsToRoute (.pulloutSubquery (.route ⟨false, []⟩) (.distinct (.route ⟨false, []⟩))) =
      true ∧
    planDistinct (.pulloutSubquery (.route ⟨false, []⟩) (.distinct (.route ⟨false, []⟩))) =
      (.pulloutSubquery (.route ⟨true, []⟩) (.distinct (.route ⟨false, []⟩)),
        .ok (.pulloutSubquery (.route ⟨true, []⟩) (.distinct (.route ⟨false, []⟩)))) ∧
    countDistinct (.pulloutSubquery (.route ⟨true, []⟩) (.distinct (.route ⟨false, []⟩))) = 1 :=
  ⟨rfl, rfl, rfl⟩

/-! DISTINCT on an orderedAggregate and on the other variants -/

/-- While no column has the node as origin the loop of `planDistinct` appends
the position of every column scanned and does not return. -/
theorem distinctLoop_of_no_self (self : Nat) (rcs : List resultColumn) :
    ∀ (i : Nat) (K : List Int), (∀ rc ∈ rcs, rc.column.origin ≠ self) →
      distinctLoop self rcs i K = (K ++ positionsFrom i rcs.length, false) := by
  induction rcs with
  | nil => intro i K _; simp [distinctLoop, positionsFrom]
  | cons rc rest ih =>
    intro i K h
    have ho : rc.column.origin ≠ self := h rc (by simp)
    simp only [distinctLoop, ho, if_false]
    rw [ih (i + 1) (K ++ [(i : Int)]) (fun r hr => h r (by simp [hr]))]
    simp [positionsFrom, List.range'_succ]

/-- The loop of `planDistinct` returns at the first column that has the node
as origin, having appended the positions of the columns before it. -/
theorem distinctLoop_of_first_self (self : Nat) (pre : List resultColumn)
    (rc : resultColumn) (post : List resultColumn) :
    ∀ (i : Nat) (K : List Int), (∀ r ∈ pre, r.column.origin ≠ self) →
      rc.column.origin = self →
      distinctLoop self (pre ++ rc :: post) i K = (K ++ positionsFrom i pre.length, true) := by
  induction pre with
  | nil => intro i K _ ho; simp [distinctLoop, ho, positionsFrom]
  | cons r rest ih =>
    intro i K h ho
    have hr : r.column.origin ≠ self := h r (by simp)
    have hstep : distinctLoop self (r :: rest ++ rc :: post) i K =
        distinctLoop self (rest ++ rc :: post) (i + 1) (K ++ [(i : Int)]) := by
      simp [distinctLoop, hr]
    rw [hstep, ih (i + 1) (K ++ [(i : Int)]) (fun r1 hr1 => h r1 (by simp [hr1])) ho]
    simp [positionsFrom, List.range'_succ]

/-- A list with a column that has the node as origin splits at the first such
column. -/
theorem exists_first_self (self : Nat) (rcs : List resultColumn)
    (h : ∃ rc ∈ rcs, rc.column.origin = self) :
    ∃ (pre : List resultColumn) (rc : resultColumn) (post : List resultColumn),
      rcs = pre ++ rc :: post ∧ (∀ r ∈ pre, r.column.origin ≠ self) ∧
        rc.column.origin = self := by
  induction rcs with
  | nil => obtain ⟨rc, hm, _⟩ := h; simp at hm
  | cons r rest ih =>
    by_cases hr : r.column.origin = self
    · exact ⟨[], r, rest, rfl, by simp, hr⟩
    · obtain ⟨rc, hm, ho⟩ := h
      simp only [List.mem_cons] at hm
      rcases hm with hm | hm
      · subst hm; exact absurd ho hr
      · obtain ⟨pre, rc1, post, he, hp, ho1⟩ := ih ⟨rc, hm, ho⟩
        refine ⟨r :: pre, rc1, post, by simp [he], ?_, ho1⟩
        intro r1 hr1
        simp only [List.mem_cons] at hr1
        rcases hr1 with hr1 | hr1
        · subst hr1; exact hr
        · exact hp r1 hr1

/-- C11: for an orderedAggregate none of whose result columns has the node
itself as origin, when `planDistinct` returns a node, that node is the
orderedAggregate itself (the tree after the call, not a distinct wrapper), its
`Keys` are the `Keys` before the call followed by the positions 0, 1, ...,
n - 1 of its n result columns, in that order, and its input is the node that
`planDistinct` returned for the input. -/
theorem planDistinct_no_aggregate_column (self : Nat) (rcs : List resultColumn) (Keys : List Int)
    (extraDistinct : Option Expr) (input r : builder)
    (hall : ∀ rc ∈ rcs, rc.column.origin ≠ self)
    (h : (planDistinct (.orderedAggregate self rcs Keys extraDistinct input)).2 = .ok r) :
    ∃ input1 : builder,
      r = .orderedAggregate self rcs (Keys ++ positionsFrom 0 rcs.length) extraDistinct input1 ∧
      planDistinct (.orderedAggregate self rcs Keys extraDistinct input) = (r, .ok r) ∧
      (planDistinct input).2 = .ok input1 := by
  rw [planDistinct, distinctLoop_of_no_self self rcs 0 Keys hall] at h ⊢
  rcases hi : planDistinct input with ⟨t1, e | r1⟩
  · simp [hi] at h
  · simp only [hi, Except.ok.injEq] at h
    exact ⟨r1, h.symm, by simp [h], rfl⟩

/-- Witness of C11: two result columns that come from the route below. -/
theorem planDistinct_no_aggregate_column_witness :
    (∀ rc ∈ ([⟨⟨10, 7⟩⟩, ⟨⟨11, 7⟩⟩] : List resultColumn), rc.column.origin ≠ 1) ∧
    (planDistinct (.orderedAggregate 1 [⟨⟨10, 7⟩⟩, ⟨⟨11, 7⟩⟩] [5] none
        (.route ⟨false, []⟩))).2 =
      .ok (.orderedAggregate 1 [⟨⟨10, 7⟩⟩, ⟨⟨11, 7⟩⟩] [5, 0, 1] none (.route ⟨true, []⟩)) ∧
    positionsFrom 0 ([⟨⟨10, 7⟩⟩, ⟨⟨11, 7⟩⟩] : List resultColumn).length = [0, 1] ∧
    ∃ input1 : builder,
      builder.orderedAggregate 1 [⟨⟨10, 7⟩⟩, ⟨⟨11, 7⟩⟩] [5, 0, 1] none (.route ⟨true, []⟩) =
        .orderedAggregate 1 [⟨⟨10, 7⟩⟩, ⟨⟨11, 7⟩⟩]
          ([5] ++ positionsFrom 0 ([⟨⟨10, 7⟩⟩, ⟨⟨11, 7⟩⟩] : List resultColumn).length)
          none input1 ∧
      planDistinct (.orderedAggregate 1 [⟨⟨10, 7⟩⟩, ⟨⟨11, 7⟩⟩] [5] none
          (.route ⟨false, []⟩)) =
        (.orderedAggregate 1 [⟨⟨10, 7⟩⟩, ⟨⟨11, 7⟩⟩] [5, 0, 1] none (.route ⟨true, []⟩),
          .ok (.orderedAggregate 1 [⟨⟨10, 7⟩⟩, ⟨⟨11, 7⟩⟩] [5, 0, 1] none
            (.route ⟨true, []⟩))) ∧
      (planDistinct (.route ⟨false, []⟩)).2 = .ok input1 :=
  ⟨by decide, rfl, rfl, planDistinct_no_aggregate_column 1 [⟨⟨10, 7⟩⟩, ⟨⟨11, 7⟩⟩] [5] none
    (.route ⟨false, []⟩) _ (by decide) rfl⟩

/-- C12: for an orderedAggregate whose result columns are `pre`, then a column
`rc` that has the node itself as origin, then `post`, no column of `pre`
having the node as origin (so `rc` is the first such column, at index k, the
length of `pre`), `planDistinct` returns without error one distinct wrapper
whose child is the orderedAggregate; the `Keys` of that node are the `Keys`
before the call followed by 0, 1, ..., k - 1, and its input is as it was. -/
theorem planDistinct_aggregate_column_wraps (self : Nat) (pre : List resultColumn) (rc : resultColumn)
    (post : List resultColumn) (Keys : List Int) (extraDistinct : Option Expr)
    (input : builder)
    (hpre : ∀ r ∈ pre, r.column.origin ≠ self) (hrc : rc.column.origin = self) :
    planDistinct (.orderedAggregate self (pre ++ rc :: post) Keys extraDistinct input) =
      (.orderedAggregate self (pre ++ rc :: post) (Keys ++ positionsFrom 0 pre.length)
          extraDistinct input,
        .ok (.distinct (.orderedAggregate self (pre ++ rc :: post)
          (Keys ++ positionsFrom 0 pre.length) extraDistinct input))) := by
  rw [planDistinct, distinctLoop_of_first_self self pre rc post 0 Keys hpre hrc]
  rfl

/-- Witness of C12: the second of three result columns is an aggregate of the
node; the route below is not marked distinct. -/
theorem planDistinct_aggregate_column_wraps_witness :
    (∀ r ∈ ([⟨⟨11, 7⟩⟩] : List resultColumn), r.column.origin ≠ 1) ∧
    (⟨⟨10, 1⟩⟩ : resultColumn).column.origin = 1 ∧
    positionsFrom 0 ([⟨⟨11, 7⟩⟩] : List resultColumn).length = [0] ∧
    planDistinct (.orderedAggregate 1 ([⟨⟨11, 7⟩⟩] ++ ⟨⟨10, 1⟩⟩ :: [⟨⟨12, 7⟩⟩]) [3] none
        (.route ⟨false, []⟩)) =
      (.orderedAggregate 1 ([⟨⟨11, 7⟩⟩] ++ ⟨⟨10, 1⟩⟩ :: [⟨⟨12, 7⟩⟩])
          ([3] ++ positionsFrom 0 ([⟨⟨11, 7⟩⟩] : List resultColumn).length) none
          (.route ⟨false, []⟩),
        .ok (.distinct (.orderedAggregate 1 ([⟨⟨11, 7⟩⟩] ++ ⟨⟨10, 1⟩⟩ :: [⟨⟨12, 7⟩⟩])
          ([3] ++ positionsFrom 0 ([⟨⟨11, 7⟩⟩] : List resultColumn).length) none
          (.route ⟨false, []⟩)))) :=
  ⟨by decide, rfl, rfl, planDistinct_aggregate_column_wraps 1 [⟨⟨11, 7⟩⟩] ⟨⟨10, 1⟩⟩
    [⟨⟨12, 7⟩⟩] [3] none (.route ⟨false, []⟩) (by decide) rfl⟩

/-- C13: on a chain of zero or more passthrough nodes whose first input leads
to a subquery, a concatenate or a join, `planDistinct` returns an error, not a
node, and the error is of kind unimplemented. -/
theorem planDistinct_unsupported (node : builder) (h : leadsToUnsupported node = true) :
    ∃ err, (planDistinct node).2 = .error err ∧ err.code = .UNIMPLEMENTED := by
  induction node with
  | mergeSort input ih =>
    obtain ⟨err, he, hc⟩ := ih (by simpa [leadsToUnsupported] using h)
    rw [planDistinct]
    rcases hi : planDistinct input with ⟨t, e | r⟩
    · rw [hi] at he; simp only [Except.error.injEq] at he; subst he
      exact ⟨e, rfl, hc⟩
    · rw [hi] at he; simp at he
  | pulloutSubquery u s ih _ =>
    obtain ⟨err, he, hc⟩ := ih (by simpa [leadsToUnsupported] using h)
    rw [planDistinct]
    rcases hi : planDistinct u with ⟨t, e | r⟩
    · rw [hi] at he; simp only [Except.error.injEq] at he; subst he
      exact ⟨e, rfl, hc⟩
    · rw [hi] at he; simp at he
  | subquery input _ => exact ⟨_, by rw [planDistinct], rfl⟩
  | concatenate l r _ _ => exact ⟨_, by rw [planDistinct], rfl⟩
  | join l r _ _ => exact ⟨_, by rw [planDistinct], rfl⟩
  | _ => simp [leadsToUnsupported] at h


/-- Witness of C13: a mergeSort over a pulloutSubquery over a concatenate. -/
theorem planDistinct_unsupported_witness :
    leadsToUnsupported (.mergeSort (.pulloutSubquery
        (.concatenate (.route ⟨false, []⟩) (.route ⟨false, []⟩)) (.route ⟨false, []⟩))) = true ∧
    ∃ err, (planDistinct (.mergeSort (.pulloutSubquery
        (.concatenate (.route ⟨false, []⟩) (.route ⟨false, []⟩)) (.route ⟨false, []⟩)))).2 =
      .error err ∧ err.code = .UNIMPLEMENTED :=
  ⟨rfl, planDistinct_unsupported (.mergeSort (.pulloutSubquery
    (.concatenate (.route ⟨false, []⟩) (.route ⟨false, []⟩)) (.route ⟨false, []⟩))) rfl⟩

/-- C14: `planDistinct` applied to a distinct node returns that node without
error and the tree after the call is the tree before it; and for an
orderedAggregate that has a result column with the node itself as origin,
`planDistinct` returns a distinct wrapper over the node as the call left it,
and `planDistinct` applied to that wrapper returns the same wrapper, over the
same node (no second wrapper, the same `Keys`). -/
theorem planDistinct_distinct_fixed_point (d : builder) (self : Nat) (rcs : List resultColumn) (Keys : List Int)
    (extraDistinct : Option Expr) (input : builder) :
    planDistinct (.distinct d) = (.distinct d, .ok (.distinct d)) ∧
    ((∃ rc ∈ rcs, rc.column.origin = self) →
      ∃ t, planDistinct (.orderedAggregate self rcs Keys extraDistinct input) =
          (t, .ok (.distinct t)) ∧
        planDistinct (.distinct t) = (.distinct t, .ok (.distinct t))) := by
  refine ⟨by rw [planDistinct], fun h => ?_⟩
  obtain ⟨pre, rc, post, he, hp, ho⟩ := exists_first_self self rcs h
  subst he
  refine ⟨.orderedAggregate self (pre ++ rc :: post) (Keys ++ positionsFrom 0 pre.length)
    extraDistinct input, ?_, by rw [planDistinct]⟩
  rw [planDistinct, distinctLoop_of_first_self self pre rc post 0 Keys hp ho]
  rfl

/-- Witness of C14: an orderedAggregate whose second result column is an
aggregate of the node. -/
theorem planDistinct_distinct_fixed_point_witness :
    (∃ rc ∈ ([⟨⟨11, 7⟩⟩, ⟨⟨10, 1⟩⟩] : List resultColumn), rc.column.origin = 1) ∧
    planDistinct (.distinct (.route ⟨false, []⟩)) =
      (.distinct (.route ⟨false, []⟩), .ok (.distinct (.route ⟨false, []⟩))) ∧
    ∃ t, planDistinct (.orderedAggregate 1 [⟨⟨11, 7⟩⟩, ⟨⟨10, 1⟩⟩] [] none
          (.route ⟨false, []⟩)) = (t, .ok (.distinct t)) ∧
      planDistinct (.distinct t) = (.distinct t, .ok (.distinct t)) :=
  have h := planDistinct_distinct_fixed_point (.route ⟨false, []⟩) 1
    [⟨⟨11, 7⟩⟩, ⟨⟨10, 1⟩⟩] [] none (.route ⟨false, []⟩)
  ⟨by decide, h.1, h.2 (by decide)⟩

/-! GROUP BY: the other variants, the route below an orderedAggregate, the frame -/

/-- C15: with a non-empty key list, for a node of a variant that the type
switch does not name (a subquery, a concatenate, a distinct, or a builder of
any further type), `planGroupBy` returns the internal error of line 94 and the
node is as it was. -/
theorem planGroupBy_falls_through (rfn : List resultColumn → Literal → Except VtError Int)
    (node : builder) (groupBy : GroupBy) (hne : groupBy ≠ [])
    (h : fallsThrough node = true) :
    planGroupBy rfn node groupBy =
      (node, .error ⟨.INTERNAL, "%T.groupBy: unreachable"⟩) := by
  cases node with
  | subquery input => exact planGroupBy_subquery rfn input groupBy hne
  | concatenate lhs rhs => exact planGroupBy_concatenate rfn lhs rhs groupBy hne
  | distinct input => exact planGroupBy_distinct rfn input groupBy hne
  | other tag => exact planGroupBy_other rfn tag groupBy hne
  | _ => simp [fallsThrough] at h


/-- Witness of C15: a concatenate of two routes, grouped by a literal. -/
theorem planGroupBy_falls_through_witness :
    ([Expr.Literal ⟨1⟩] : GroupBy) ≠ [] ∧
    fallsThrough (.concatenate (.route ⟨false, []⟩) (.route ⟨false, []⟩)) = true ∧
    planGroupBy ResultFromNumber (.concatenate (.route ⟨false, []⟩) (.route ⟨false, []⟩))
        [.Literal ⟨1⟩] =
      (.concatenate (.route ⟨false, []⟩) (.route ⟨false, []⟩),
        .error ⟨.INTERNAL, "%T.groupBy: unreachable"⟩) :=
  ⟨by simp, rfl, planGroupBy_falls_through ResultFromNumber
    (.concatenate (.route ⟨false, []⟩) (.route ⟨false, []⟩)) [.Literal ⟨1⟩] (by simp) rfl⟩

/-- C16: for an orderedAggregate and a key list in which some key is an
expression that is neither a column reference nor a literal, the keys before it
being gone through by the loop without error, `planGroupBy` returns the
unimplemented error "only simple references allowed" of line 74, whatever the
input of the node is. -/
theorem planGroupBy_other_expression (rfn : List resultColumn → Literal → Except VtError Int)
    (self : Nat) (rcs : List resultColumn) (Keys : List Int) (extraDistinct : Option Expr)
    (input : builder) (pre post : GroupBy) (tag : Nat)
    (hpre : (groupByLoop rfn self rcs pre (-1) Keys).2 = .ok ()) :
    (planGroupBy rfn (.orderedAggregate self rcs Keys extraDistinct input)
        (pre ++ .Other tag :: post)).2 =
      .error ⟨.UNIMPLEMENTED,
        "unsupported: in scatter query: only simple references allowed"⟩ := by
  obtain ⟨cn1, ps, _, hrest⟩ := groupByLoop_append_of_ok rfn self rcs pre (-1) Keys hpre
  have hk : resolveKey rfn self rcs (.Other tag) cn1 = .error ⟨.UNIMPLEMENTED,
      "unsupported: in scatter query: only simple references allowed"⟩ := by
    simp [resolveKey]
  rw [planGroupBy_of_loop_error rfn self rcs Keys (Keys ++ ps) extraDistinct input _ _
    (by rw [hrest, groupByLoop_cons_error _ _ _ _ _ _ _ _ hk])]


/-- Witness of C16: the second key is an expression of another shape, over a
join. -/
theorem planGroupBy_other_expression_witness :
    (groupByLoop ResultFromNumber 1 [⟨⟨10, 1⟩⟩, ⟨⟨11, 7⟩⟩] [.ColName ⟨11, 7⟩] (-1) []).2 =
      .ok () ∧
    (planGroupBy ResultFromNumber
        (.orderedAggregate 1 [⟨⟨10, 1⟩⟩, ⟨⟨11, 7⟩⟩] [] none
          (.join (.route ⟨false, []⟩) (.route ⟨false, []⟩)))
        ([.ColName ⟨11, 7⟩] ++ .Other 4 :: [.Literal ⟨9⟩])).2 =
      .error ⟨.UNIMPLEMENTED,
        "unsupported: in scatter query: only simple references allowed"⟩ :=
  ⟨rfl, planGroupBy_other_expression ResultFromNumber 1 [⟨⟨10, 1⟩⟩, ⟨⟨11, 7⟩⟩] [] none
    (.join (.route ⟨false, []⟩) (.route ⟨false, []⟩)) [.ColName ⟨11, 7⟩] [.Literal ⟨9⟩] 4 rfl⟩

/-- C17 (amended): for an orderedAggregate whose input is a route and a key
list that the loop of the node goes through without error, `planGroupBy`
returns the node without error, the route keeps its distinct mark, and its
GROUP BY clause is the key list given when the node has no extra-distinct
expression and the key list is not empty, the key list given followed by the
extra-distinct expression when the node has one (also when the key list is
empty); when the node has none and the key list is empty the route is as it
was. -/
theorem planGroupBy_route_below_aggregate (rfn : List resultColumn → Literal → Except VtError Int)
    (self : Nat) (rcs : List resultColumn) (Keys : List Int) (extraDistinct : Option Expr)
    (sel : Select) (groupBy : GroupBy)
    (hres : (groupByLoop rfn self rcs groupBy (-1) Keys).2 = .ok ()) :
    ∃ (K : List Int) (sel1 : Select),
      planGroupBy rfn (.orderedAggregate self rcs Keys extraDistinct (.route sel)) groupBy =
        (.orderedAggregate self rcs K extraDistinct (.route sel1),
          .ok (.orderedAggregate self rcs K extraDistinct (.route sel1))) ∧
      sel1.Distinct = sel.Distinct ∧
      (extraDistinct = none → groupBy ≠ [] → sel1.GroupBy = groupBy) ∧
      (∀ e, extraDistinct = some e → sel1.GroupBy = groupBy ++ [e]) ∧
      (extraDistinct = none → groupBy = [] → sel1 = sel) := by
  rcases hl : groupByLoop rfn self rcs groupBy (-1) Keys with ⟨K, e | u⟩
  · rw [hl] at hres; simp at hres
  · rw [planGroupBy_orderedAggregate, hl]
    by_cases hg : appendExtraDistinct groupBy extraDistinct = []
    · have hex : extraDistinct = none ∧ groupBy = [] := by
        cases extraDistinct with
        | none => exact ⟨rfl, by simpa [appendExtraDistinct] using hg⟩
        | some e => simp [appendExtraDistinct] at hg
      refine ⟨K, sel, ?_, rfl, fun _ hne => absurd hex.2 hne, ?_, fun _ _ => rfl⟩
      · rw [hg, planGroupBy_nil_of_not_ordered rfn _ (by rfl)]
      · intro e he; rw [hex.1] at he; simp at he
    · refine ⟨K, { sel with GroupBy := appendExtraDistinct groupBy extraDistinct }, ?_, rfl,
        ?_, ?_, ?_⟩
      · rw [planGroupBy_route rfn _ _ hg]
      · intro he _; subst he; rfl
      · intro e he; subst he; rfl
      · intro he hgn; subst he; subst hgn; simp [appendExtraDistinct] at hg

/-- Witness of C17 (amended): an empty key list and the extra-distinct column
12, over a route grouped by something else. -/
theorem planGroupBy_route_below_aggregate_witness :
    (groupByLoop ResultFromNumber 1 [⟨⟨11, 7⟩⟩, ⟨⟨12, 7⟩⟩] [] (-1) [2]).2 = .ok () ∧
    planGroupBy ResultFromNumber
        (.orderedAggregate 1 [⟨⟨11, 7⟩⟩, ⟨⟨12, 7⟩⟩] [2] (some (.ColName ⟨12, 7⟩))
          (.route ⟨true, [.Other 5]⟩)) [] =
      (.orderedAggregate 1 [⟨⟨11, 7⟩⟩, ⟨⟨12, 7⟩⟩] [2] (some (.ColName ⟨12, 7⟩))
          (.route ⟨true, [.ColName ⟨12, 7⟩]⟩),
        .ok (.orderedAggregate 1 [⟨⟨11, 7⟩⟩, ⟨⟨12, 7⟩⟩] [2] (some (.ColName ⟨12, 7⟩))
          (.route ⟨true, [.ColName ⟨12, 7⟩]⟩))) ∧
    ∃ (K : List Int) (sel1 : Select),
      planGroupBy ResultFromNumber
          (.orderedAggregate 1 [⟨⟨11, 7⟩⟩, ⟨⟨12, 7⟩⟩] [2] (some (.ColName ⟨12, 7⟩))
            (.route ⟨true, [.Other 5]⟩)) [] =
        (.orderedAggregate 1 [⟨⟨11, 7⟩⟩, ⟨⟨12, 7⟩⟩] K (some (.ColName ⟨12, 7⟩)) (.route sel1),
          .ok (.orderedAggregate 1 [⟨⟨11, 7⟩⟩, ⟨⟨12, 7⟩⟩] K (some (.ColName ⟨12, 7⟩))
            (.route sel1))) ∧
      sel1.Distinct = true ∧ sel1.GroupBy = [] ++ [.ColName ⟨12, 7⟩] :=
  have h := planGroupBy_route_below_aggregate ResultFromNumber 1 [⟨⟨11, 7⟩⟩, ⟨⟨12, 7⟩⟩] [2]
    (some (.ColName ⟨12, 7⟩)) ⟨true, [.Other 5]⟩ [] rfl
  ⟨rfl, rfl, h.imp (fun _ hK => hK.imp (fun _ hs => ⟨hs.1, hs.2.1, hs.2.2.2.1 _ rfl⟩))⟩

/-- Counterexample to C17 as stated: the node has no extra-distinct expression
and the route below is grouped by an expression; with the empty key list, which
the loop goes through without error, the call returns the node and the GROUP BY
clause of the route is still that expression, not the empty key list. -/
theorem planGroupBy_route_below_aggregate_counterexample :
    (groupByLoop ResultFromNumber 1 [⟨⟨11, 7⟩⟩] [] (-1) []).2 = .ok () ∧
    planGroupBy ResultFromNumber
        (.orderedAggregate 1 [⟨⟨11, 7⟩⟩] [] none (.route ⟨false, [.Other 5]⟩)) [] =
      (.orderedAggregate 1 [⟨⟨11, 7⟩⟩] [] none (.route ⟨false, [.Other 5]⟩),
        .ok (.orderedAggregate 1 [⟨⟨11, 7⟩⟩] [] none (.route ⟨false, [.Other 5]⟩))) ∧
    ([Expr.Other 5] : GroupBy) ≠ [] :=
  ⟨rfl, rfl, by simp⟩

/-- A tree has its own shape. -/
theorem sameUpToKeysAndGroupBy_refl (node : builder) :
    sameUpToKeysAndGroupBy node node = true := by
  induction node with
  | mergeSort input ih => simpa [sameUpToKeysAndGroupBy] using ih
  | pulloutSubquery u s ih _ => simpa [sameUpToKeysAndGroupBy] using ih
  | orderedAggregate self rcs Keys extra input ih => simpa [sameUpToKeysAndGroupBy] using ih
  | _ => simp [sameUpToKeysAndGroupBy]

/-- Whether or not the call ends in an error, the tree after `planGroupBy` has
the shape of the tree before and differs from it at most in the `Keys` of
orderedAggregate nodes and the GROUP BY clause of the route on the walk. -/
theorem sameUpToKeysAndGroupBy_planGroupBy
    (rfn : List resultColumn → Literal → Except VtError Int)
    (node : builder) (groupBy : GroupBy) :
    sameUpToKeysAndGroupBy node (planGroupBy rfn node groupBy).1 = true := by
  induction node generalizing groupBy with
  | mergeSort input ih =>
    by_cases hg : groupBy = []
    · subst hg; rw [planGroupBy_nil_of_not_ordered rfn _ (by rfl)]
      exact sameUpToKeysAndGroupBy_refl _
    · rw [planGroupBy_mergeSort rfn _ _ hg]
      have := ih groupBy
      rcases h : planGroupBy rfn input groupBy with ⟨t, e | r⟩
      · simp only [h] at this ⊢; simpa [sameUpToKeysAndGroupBy] using this
      · have hr := planGroupBy_ok_eq rfn _ _ _ _ h
        subst hr
        simp only [h] at this ⊢; simpa [sameUpToKeysAndGroupBy] using this
  | pulloutSubquery u s ih _ =>
    by_cases hg : groupBy = []
    · subst hg; rw [planGroupBy_nil_of_not_ordered rfn _ (by rfl)]
      exact sameUpToKeysAndGroupBy_refl _
    · rw [planGroupBy_pulloutSubquery rfn _ _ _ hg]
      have := ih groupBy
      rcases h : planGroupBy rfn u groupBy with ⟨t, e | r⟩
      · simp only [h] at this ⊢; simpa [sameUpToKeysAndGroupBy] using this
      · have hr := planGroupBy_ok_eq rfn _ _ _ _ h
        subst hr
        simp only [h] at this ⊢; simpa [sameUpToKeysAndGroupBy] using this
  | orderedAggregate self rcs Keys extra input ih =>
    rw [planGroupBy_orderedAggregate]
    rcases hl : groupByLoop rfn self rcs groupBy (-1) Keys with ⟨K, e | u⟩
    · simpa [sameUpToKeysAndGroupBy] using sameUpToKeysAndGroupBy_refl input
    · have := ih (appendExtraDistinct groupBy extra)
      rcases h : planGroupBy rfn input (appendExtraDistinct groupBy extra) with ⟨t, e | r⟩
      · simp only [h] at this ⊢; simpa [sameUpToKeysAndGroupBy] using this
      · have hr := planGroupBy_ok_eq rfn _ _ _ _ h
        subst hr
        simp only [h] at this ⊢; simpa [sameUpToKeysAndGroupBy] using this
  | _ =>
    by_cases hg : groupBy = []
    · subst hg; rw [planGroupBy_nil_of_not_ordered rfn _ (by rfl)]
      exact sameUpToKeysAndGroupBy_refl _
    · simp [planGroupBy_route, planGroupBy_join, planGroupBy_subquery, planGroupBy_concatenate,
        planGroupBy_distinct, planGroupBy_other, hg, sameUpToKeysAndGroupBy]

/-- C18: when `planGroupBy` returns a node, it is the node it was given (the
tree after the call), and that tree has the shape of the tree before the call:
it differs from it at most in the `Keys` of the orderedAggregate nodes and the
GROUP BY clause of the route on the walk through the first input of passthrough
nodes and the input of orderedAggregate nodes; the other child of a
pulloutSubquery and every other field are equal. -/
theorem planGroupBy_frame (rfn : List resultColumn → Literal → Except VtError Int)
    (node : builder) (groupBy : GroupBy) (r : builder)
    (h : (planGroupBy rfn node groupBy).2 = .ok r) :
    planGroupBy rfn node groupBy = (r, .ok r) ∧ sameUpToKeysAndGroupBy node r = true := by
  rcases hp : planGroupBy rfn node groupBy with ⟨t, e | r1⟩
  · rw [hp] at h; simp at h
  · have hr := planGroupBy_ok_eq rfn _ _ _ _ hp
    subst hr
    rw [hp] at h
    simp only [Except.ok.injEq] at h
    subst h
    have := sameUpToKeysAndGroupBy_planGroupBy rfn node groupBy
    rw [hp] at this
    exact ⟨rfl, this⟩


/-- Witness of C18: a pulloutSubquery whose first input is an orderedAggregate
over a route and whose other input is a route with its own GROUP BY clause. -/
theorem planGroupBy_frame_witness :
    (planGroupBy ResultFromNumber
        (.pulloutSubquery (.orderedAggregate 1 [⟨⟨11, 7⟩⟩] [] none (.route ⟨false, []⟩))
          (.route ⟨true, [.Other 5]⟩)) [.ColName ⟨11, 7⟩]).2 =
      .ok (.pulloutSubquery (.orderedAggregate 1 [⟨⟨11, 7⟩⟩] [0] none
          (.route ⟨false, [.ColName ⟨11, 7⟩]⟩)) (.route ⟨true, [.Other 5]⟩)) ∧
    planGroupBy ResultFromNumber
        (.pulloutSubquery (.orderedAggregate 1 [⟨⟨11, 7⟩⟩] [] none (.route ⟨false, []⟩))
          (.route ⟨true, [.Other 5]⟩)) [.ColName ⟨11, 7⟩] =
      (.pulloutSubquery (.orderedAggregate 1 [⟨⟨11, 7⟩⟩] [0] none
          (.route ⟨false, [.ColName ⟨11, 7⟩]⟩)) (.route ⟨true, [.Other 5]⟩),
        .ok (.pulloutSubquery (.orderedAggregate 1 [⟨⟨11, 7⟩⟩] [0] none
          (.route ⟨false, [.ColName ⟨11, 7⟩]⟩)) (.route ⟨true, [.Other 5]⟩))) ∧
    sameUpToKeysAndGroupBy
        (.pulloutSubquery (.orderedAggregate 1 [⟨⟨11, 7⟩⟩] [] none (.route ⟨false, []⟩))
          (.route ⟨true, [.Other 5]⟩))
        (.pulloutSubquery (.orderedAggregate 1 [⟨⟨11, 7⟩⟩] [0] none
          (.route ⟨false, [.ColName ⟨11, 7⟩]⟩)) (.route ⟨true, [.Other 5]⟩)) = true :=
  ⟨rfl, planGroupBy_frame ResultFromNumber
    (.pulloutSubquery (.orderedAggregate 1 [⟨⟨11, 7⟩⟩] [] none (.route ⟨false, []⟩))
      (.route ⟨true, [.Other 5]⟩)) [.ColName ⟨11, 7⟩] _ rfl⟩

/-- C19: on a tree no orderedAggregate of which carries an extra-distinct
expression, `planGroupBy` with the empty key list returns the node it was
given without error and the tree after the call is the tree before it, also
when the root is an orderedAggregate: its `Keys` are as they were, and a join
below it gives no error. -/
theorem planGroupBy_empty_no_extraDistinct (rfn : List resultColumn → Literal → Except VtError Int)
    (node : builder) (h : noExtraDistinct node = true) :
    planGroupBy rfn node [] = (node, .ok node) := by
  induction node with
  | orderedAggregate self rcs Keys extra input ih =>
    simp only [noExtraDistinct, Bool.and_eq_true, Option.isNone_iff_eq_none] at h
    obtain ⟨he, hi⟩ := h
    subst he
    rw [planGroupBy_orderedAggregate]
    simp [groupByLoop, appendExtraDistinct, ih hi]
  | _ => exact planGroupBy_nil_of_not_ordered rfn _ (by rfl)


/-- Witness of C19: an orderedAggregate with `Keys` over a join. -/
theorem planGroupBy_empty_no_extraDistinct_witness :
    noExtraDistinct (.orderedAggregate 1 [⟨⟨11, 7⟩⟩] [0] none
        (.join (.route ⟨false, []⟩) (.route ⟨false, []⟩))) = true ∧
    planGroupBy ResultFromNumber (.orderedAggregate 1 [⟨⟨11, 7⟩⟩] [0] none
        (.join (.route ⟨false, []⟩) (.route ⟨false, []⟩))) [] =
      (.orderedAggregate 1 [⟨⟨11, 7⟩⟩] [0] none
          (.join (.route ⟨false, []⟩) (.route ⟨false, []⟩)),
        .ok (.orderedAggregate 1 [⟨⟨11, 7⟩⟩] [0] none
          (.join (.route ⟨false, []⟩) (.route ⟨false, []⟩)))) :=
  ⟨rfl, planGroupBy_empty_no_extraDistinct ResultFromNumber
    (.orderedAggregate 1 [⟨⟨11, 7⟩⟩] [0] none
      (.join (.route ⟨false, []⟩) (.route ⟨false, []⟩))) rfl⟩

/-- C20: on a tree built only from the variants mergeSort, pulloutSubquery,
route, orderedAggregate, join, subquery, concatenate and distinct, every error
that `planDistinct` returns is of kind unimplemented. -/
theorem planDistinct_error_kind (node : builder) (err : VtError) (h : knownVariants node = true)
    (he : (planDistinct node).2 = .error err) : err.code = .UNIMPLEMENTED := by
  induction node with
  | mergeSort input ih =>
    rw [planDistinct] at he
    rcases hi : planDistinct input with ⟨t, e | r⟩
    · simp only [hi, Except.error.injEq] at he
      subst he
      exact ih (by simpa [knownVariants] using h) (by rw [hi])
    · simp [hi] at he
  | pulloutSubquery u s ih _ =>
    rw [planDistinct] at he
    rcases hi : planDistinct u with ⟨t, e | r⟩
    · simp only [hi, Except.error.injEq] at he
      subst he
      simp only [knownVariants, Bool.and_eq_true] at h
      exact ih h.1 (by rw [hi])
    · simp [hi] at he
  | route sel => rw [planDistinct] at he; simp at he
  | orderedAggregate self rcs Keys extra input ih =>
    rw [planDistinct] at he
    rcases hl : distinctLoop self rcs 0 Keys with ⟨K, b⟩
    cases b with
    | true => simp [hl] at he
    | false =>
      rcases hi : planDistinct input with ⟨t, e | r⟩
      · simp only [hl, hi, Except.error.injEq] at he
        subst he
        exact ih (by simpa [knownVariants] using h) (by rw [hi])
      · simp [hl, hi] at he
  | subquery input _ =>
    rw [planDistinct] at he; simp only [Except.error.injEq] at he; rw [← he]
  | concatenate l r _ _ =>
    rw [planDistinct] at he; simp only [Except.error.injEq] at he; rw [← he]
  | join l r _ _ =>
    rw [planDistinct] at he; simp only [Except.error.injEq] at he; rw [← he]
  | distinct input _ => rw [planDistinct] at he; simp at he
  | other tag => simp [knownVariants] at h

/-- Witness of C20: a mergeSort over an orderedAggregate over a subquery. -/
theorem planDistinct_error_kind_witness :
    knownVariants (.mergeSort (.orderedAggregate 1 [⟨⟨11, 7⟩⟩] [] none
        (.subquery (.route ⟨false, []⟩)))) = true ∧
    (planDistinct (.mergeSort (.orderedAggregate 1 [⟨⟨11, 7⟩⟩] [] none
        (.subquery (.route ⟨false, []⟩))))).2 =
      .error ⟨.UNIMPLEMENTED, "unsupported: distinct on cross-shard subquery"⟩ ∧
    (⟨.UNIMPLEMENTED, "unsupported: distinct on cross-shard subquery"⟩ : VtError).code =
      .UNIMPLEMENTED :=
  ⟨rfl, rfl, planDistinct_error_kind (.mergeSort (.orderedAggregate 1 [⟨⟨11, 7⟩⟩] [] none
    (.subquery (.route ⟨false, []⟩)))) _ rfl rfl⟩

end planbuilder
